import Mathlib

/-!
# AxonCore: registries, scope resolvers, module activation and the message collector

A shallow embedding of the dispatch core of AxonCore:

* `src/Structures/Stores/ListenerRegistry.js` (`register`, `unregister`),
* `src/Structures/Module.js` (`init`),
* the four scope resolvers under `src/Libraries/*/handlers`,
* `src/Utility/External/MessageCollector.js`.

JavaScript exceptions are modelled by returning the state reached at the point
of the throw together with the fault raised: a `throw` never undoes the
mutations that were performed before it.
-/

set_option autoImplicit false

namespace AxonCore

/-! ## Faults -/

/-- Exceptions that the embedded code can raise. -/
inductive Fault where
  /-- The runtime `TypeError` of a property read on `null` or `undefined`. -/
  | typeError (message : String)
  /-- An instance `new AxonError(message, context, moduleLabel)`. -/
  | axonError (message : String) (context : String) (moduleLabel : Option String)
  /-- An instance `new Error(message)`. -/
  | error (message : String)
  /-- The `DuplicateKey` failure of the keyed container. -/
  | duplicateKey (label : String)
  /-- A failure raised inside a collaborator (EventManager, loader). -/
  | collaborator (message : String)
  deriving DecidableEq, Repr

deriving instance DecidableEq for Except

/-! ## Keyed container -/

/-- Modelled from the spec: the `Collection` class (`src/Utility/Collection.js`) and the
`ARegistry` base class (`src/Structures/Stores/ARegistry.js`) are not part of the sources at
hand. §3 and §4.1 describe the container as a mapping from label to value with unique keys
and insertion order preserved for enumeration. -/
structure Collection (α : Type) where
  entries : List (String × α)
  deriving DecidableEq, Repr

namespace Collection

variable {α : Type}

/-- Modelled from the spec: the container a constructor call `new Collection()` yields. -/
def empty : Collection α := ⟨[]⟩

/-- Modelled from the spec: `has(label)`, membership of a key. -/
def has (c : Collection α) (label : String) : Bool :=
  c.entries.any (fun e => e.1 == label)

/-- Modelled from the spec: `get(label)` "returns the value or a sentinel absence (never
throws on miss)". -/
def get (c : Collection α) (label : String) : Option α :=
  (c.entries.find? (fun e => e.1 == label)).map Prod.snd

/-- Modelled from the spec: `size`, the number of entries. -/
def size (c : Collection α) : Nat := c.entries.length

/-- Modelled from the spec: the keys in enumeration (insertion) order. -/
def keys (c : Collection α) : List String := c.entries.map Prod.fst

/-- Modelled from the spec: `add(label, value)` "fails with `DuplicateKey` if label already
present"; a new entry goes last in the enumeration order. -/
def add (c : Collection α) (label : String) (value : α) : Except Fault (Collection α) :=
  if c.has label then .error (.duplicateKey label)
  else .ok ⟨c.entries ++ [(label, value)]⟩

/-- Modelled from the spec: `remove(label)` "returns the removed value or absence"; removing
an absent key "is a no-op returning failure, not a crash". -/
def remove (c : Collection α) (label : String) : Option α × Collection α :=
  (c.get label, ⟨c.entries.filter (fun e => !(e.1 == label))⟩)

end Collection

/-! ## Listeners and the listener registry -/

/-- The part of a `Module` that the registry reads: `this.label = data.label || null`. -/
structure ModuleRef where
  label : Option String
  deriving DecidableEq, Repr

/-- The fields of a `Listener` that `ListenerRegistry` reads. -/
structure Listener where
  label : String
  eventName : String
  module : ModuleRef
  deriving DecidableEq, Repr

/-- Observable effects of the registry code, in the order in which they are performed. -/
inductive Effect where
  /-- The call `this.add(label, listener)` went through. -/
  | registryAdd (label : String) (listener : Listener)
  /-- The call `this.remove(label)`. -/
  | registryRemove (label : String)
  /-- The call `this.axon.eventManager.registerListener(listener)` was issued. -/
  | registerListener (listener : Listener)
  /-- The call `this.axon.eventManager.unregisterListener(eventName, label)` was issued. -/
  | unregisterListener (eventName : String) (label : String)
  /-- The call `this.axon.log(level, content)`. -/
  | log (level : String) (content : String)
  deriving DecidableEq, Repr

/-- The EventManager collaborator (`src/Core/EventManager.js`, not part of the sources at
hand), abstracted to its two entry points acting on its own state `σ`. Each returns the state
it leaves behind and the fault it raised, if any. -/
structure EventManager (σ : Type) where
  registerListener : Listener → σ → σ × Option Fault
  unregisterListener : String → String → σ → σ × Option Fault

/-- The state `ListenerRegistry` works on: its own container (`this.registry`), the state of
`this.axon.eventManager`, and the effects performed so far. -/
structure Axon (σ : Type) where
  registry : Collection Listener
  eventManager : σ
  effects : List Effect
  deriving DecidableEq, Repr

namespace ListenerRegistry

variable {σ : Type}

/-- The text of `${listener.module.label}` inside a template literal. -/
def moduleText (l : Listener) : String :=
  match l.module.label with
  | some s => s
  | none => "null"

/-- Embedding of `ListenerRegistry.register(label, listener)`:
```
if (this.registry.has(label)) throw new AxonError(..., 'LISTENER-REGISTRY', listener.module.label);
this.add(label, listener);
this.axon.eventManager.registerListener(listener);
``` -/
def register (em : EventManager σ) (label : String) (listener : Listener) (s : Axon σ) :
    Axon σ × Option Fault :=
  if s.registry.has label then
    (s, some (.axonError ("Register [" ++ label ++ "]: Already registered!")
      "LISTENER-REGISTRY" listener.module.label))
  else
    match s.registry.add label listener with
    | .error e => (s, some e)
    | .ok r =>
      let s1 : Axon σ :=
        { s with registry := r, effects := s.effects ++ [.registryAdd label listener] }
      let res := em.registerListener listener s1.eventManager
      ({ s1 with eventManager := res.1, effects := s1.effects ++ [.registerListener listener] },
        res.2)

/-- Embedding of `ListenerRegistry.unregister(label, listener = null)`:
```
if (!listener) listener = this.get(label);
if (!listener) throw new AxonError(`Unregister: Not registered!`, 'LISTENER-REGISTRY', listener.module.label);
this.remove(label);
this.axon.eventManager.unregisterListener(listener.eventName, listener.label);
this.axon.log('INFO', ...);
```
When `listener` is still `null`/`undefined` at the second test, evaluating the argument
`listener.module.label` of the `AxonError` constructor reads a property of `null`/`undefined`,
which raises a `TypeError` before any `AxonError` is built. -/
def unregister (em : EventManager σ) (label : String) (listener : Option Listener)
    (s : Axon σ) : Axon σ × Option Fault :=
  let listener := match listener with
    | some l => some l
    | none => s.registry.get label
  match listener with
  | none => (s, some (.typeError "Cannot read property 'module' of undefined"))
  | some l =>
    let s1 : Axon σ :=
      { s with registry := (s.registry.remove label).2,
               effects := s.effects ++ [.registryRemove label] }
    let res := em.unregisterListener l.eventName l.label s1.eventManager
    let s2 : Axon σ :=
      { s1 with eventManager := res.1,
                effects := s1.effects ++ [.unregisterListener l.eventName l.label] }
    match res.2 with
    | some e => (s2, some e)
    | none =>
      ({ s2 with effects := s2.effects ++ [.log "INFO"
          ("LISTENER-REGISTRY - [Module(" ++ moduleText l ++ ")] Listener: " ++ label ++
            " unregistered!")] }, none)

/-- The `unregisterListener` calls among a list of effects, as (eventName, label) pairs. -/
def unregisterCalls (es : List Effect) : List (String × String) :=
  es.filterMap (fun e =>
    match e with
    | .unregisterListener eventName label => some (eventName, label)
    | _ => none)

/-- The `registerListener` calls among a list of effects. -/
def registerCalls (es : List Effect) : List Listener :=
  es.filterMap (fun e =>
    match e with
    | .registerListener l => some l
    | _ => none)

/-- The pairing §4.4 asks of `unregister`, between the state `s` before the call and the state
`t` after it: either the entry stored under `label` was removed and `unregisterListener` was
issued exactly once, for the stored listener's event name and the label it is registered
under, or nothing happened at all. -/
def BothOrNeither (label : String) (s t : Axon σ) : Prop :=
  (∃ l, s.registry.get label = some l ∧ t.registry.has label = false ∧
      unregisterCalls (t.effects.drop s.effects.length) = [(l.eventName, label)]) ∨
    (t.registry = s.registry ∧ t.eventManager = s.eventManager ∧
      unregisterCalls (t.effects.drop s.effects.length) = [])

end ListenerRegistry

/-! ## A concrete EventManager -/

/-- Modelled from the spec: the subscription table of the EventManager (§3, §4.3): for each
internal event name the ordered sequence of listeners, and the upstream subscribe and
unsubscribe calls issued so far (`true` for subscribe, `false` for unsubscribe). -/
structure EventTable where
  listeners : List (String × List Listener)
  upstream : List (Bool × String)
  deriving DecidableEq, Repr

namespace EventTable

/-- Modelled from the spec: the listeners subscribed for an event name. -/
def listenersOf (t : EventTable) (eventName : String) : List Listener :=
  ((t.listeners.find? (fun e => e.1 == eventName)).map Prod.snd).getD []

/-- Modelled from the spec: replace the list stored for an event name. -/
def setListeners (t : EventTable) (eventName : String) (ls : List Listener) :
    List (String × List Listener) :=
  t.listeners.filter (fun e => !(e.1 == eventName)) ++ [(eventName, ls)]

/-- Modelled from the spec: `registerListener(listener)` (§4.3): "if no Listener is yet
subscribed for `listener.eventName`, issue exactly one upstream subscribe call for that event
name; always append the listener to the ordered list for that event name". -/
def registerListener (l : Listener) (t : EventTable) : EventTable × Option Fault :=
  let old := t.listenersOf l.eventName
  ({ listeners := t.setListeners l.eventName (old ++ [l]),
     upstream := if old.isEmpty then t.upstream ++ [(true, l.eventName)] else t.upstream },
   none)

/-- Modelled from the spec: `unregisterListener(eventName, label)` (§4.3): "remove the
matching listener from the ordered list by label; when the list becomes empty, issue exactly
one upstream unsubscribe call for that event name"; removal is idempotent (§3). -/
def unregisterListener (eventName label : String) (t : EventTable) :
    EventTable × Option Fault :=
  let old := t.listenersOf eventName
  let new := old.filter (fun l => !(l.label == label))
  if old.isEmpty then (t, none)
  else
    ({ listeners := t.setListeners eventName new,
       upstream := if new.isEmpty then t.upstream ++ [(false, eventName)] else t.upstream },
     none)

/-- The EventManager of §4.3 as a collaborator of the registry. -/
def manager : EventManager EventTable :=
  { registerListener := registerListener, unregisterListener := unregisterListener }

/-- An EventManager whose subscription step fails: `registerListener` throws as soon as it is
entered and leaves its own state as it was. -/
def failing : EventManager EventTable :=
  { registerListener := fun _ t => (t, some (.collaborator "registerListener failed")),
    unregisterListener := unregisterListener }

end EventTable

/-! ## Scope resolvers -/

/-- JavaScript values a raw payload is made of. -/
inductive JSValue where
  | undefined
  | null
  | bool (b : Bool)
  | num (n : Int)
  | str (s : String)
  | obj (fields : List (String × JSValue))

namespace JSValue

/-- Property read `v.name`. Reading a property of `undefined` or `null` raises a `TypeError`;
an object yields the field or `undefined`; a primitive has none of the properties the
resolvers read (`channel`, `guild`, `message`, `id`) and yields `undefined`. -/
def getProp (v : JSValue) (name : String) : Except Fault JSValue :=
  match v with
  | .undefined => .error (.typeError ("Cannot read property '" ++ name ++ "' of undefined"))
  | .null => .error (.typeError ("Cannot read property '" ++ name ++ "' of null"))
  | .obj fields =>
    match fields.find? (fun f => f.1 == name) with
    | some f => .ok f.2
    | none => .ok .undefined
  | _ => .ok .undefined

/-- JavaScript truthiness, as used by the conditional operator. -/
def truthy : JSValue → Bool
  | .undefined => false
  | .null => false
  | .bool b => b
  | .num n => n != 0
  | .str s => s != ""
  | .obj _ => true

/-- The values on which a property read raises: `undefined` and `null`. -/
def nullish : JSValue → Bool
  | .undefined => true
  | .null => true
  | _ => false

/-- A payload object: any value built with an object literal. -/
def isObject : JSValue → Bool
  | .obj _ => true
  | _ => false

end JSValue

namespace Eris

/-- Embedding of the eris `MessageCreateHandler.handle(message)`:
`return message.channel.guild ? message.channel.guild.id : null;` -/
def MessageCreateHandler.handle (message : JSValue) : Except Fault JSValue := do
  let channel ← message.getProp "channel"
  let guild ← channel.getProp "guild"
  if guild.truthy then
    let channel2 ← message.getProp "channel"
    let guild2 ← channel2.getProp "guild"
    guild2.getProp "id"
  else
    pure .null

/-- Embedding of the eris `MessageReactionRemoveAllHandler.handle(message)`:
`return message.channel.guild ? message.channel.guild.id : null;` -/
def MessageReactionRemoveAllHandler.handle (message : JSValue) : Except Fault JSValue := do
  let channel ← message.getProp "channel"
  let guild ← channel.getProp "guild"
  if guild.truthy then
    let channel2 ← message.getProp "channel"
    let guild2 ← channel2.getProp "guild"
    guild2.getProp "id"
  else
    pure .null

end Eris

namespace Djs

/-- Embedding of the discord.js `ChannelDeleteHandler.handle(channel)`:
`return channel.guild ? channel.guild.id : null;` -/
def ChannelDeleteHandler.handle (channel : JSValue) : Except Fault JSValue := do
  let guild ← channel.getProp "guild"
  if guild.truthy then
    let guild2 ← channel.getProp "guild"
    guild2.getProp "id"
  else
    pure .null

/-- Embedding of the discord.js `MessageReactionRemoveHandler.handle(messageReaction)`:
`return messageReaction.message.guild ? messageReaction.message.guild.id : null;` -/
def MessageReactionRemoveHandler.handle (messageReaction : JSValue) : Except Fault JSValue := do
  let message ← messageReaction.getProp "message"
  let guild ← message.getProp "guild"
  if guild.truthy then
    let message2 ← messageReaction.getProp "message"
    let guild2 ← message2.getProp "guild"
    guild2.getProp "id"
  else
    pure .null

end Djs

/-! ### Well-formed payloads -/

/-- A guild as the upstream libraries deliver it: it has an `id`. -/
structure Guild where
  id : String
  deriving DecidableEq, Repr

/-- A well-formed channel: its `guild` is present exactly when the channel belongs to one. -/
structure GuildChannel where
  id : String
  guild : Option Guild
  deriving DecidableEq, Repr

/-- A well-formed eris message: it always has a channel. -/
structure ErisMessage where
  id : String
  channel : GuildChannel
  deriving DecidableEq, Repr

/-- A well-formed discord.js message: `guild` is present exactly for guild messages. -/
structure DjsMessage where
  id : String
  guild : Option Guild
  deriving DecidableEq, Repr

/-- A well-formed discord.js reaction: it always has a message. -/
structure DjsReaction where
  emoji : String
  message : DjsMessage
  deriving DecidableEq, Repr

/-- The object a guild is delivered as. -/
def Guild.toJS (g : Guild) : JSValue := .obj [("id", .str g.id)]

/-- The `guild` field of a payload; an absent guild is delivered as `null` when `viaNull`
holds and as a missing field otherwise. -/
def guildField (viaNull : Bool) : Option Guild → List (String × JSValue)
  | some g => [("guild", g.toJS)]
  | none => if viaNull then [("guild", .null)] else []

/-- The object a well-formed channel is delivered as. -/
def GuildChannel.toJS (viaNull : Bool) (c : GuildChannel) : JSValue :=
  .obj ([("id", .str c.id)] ++ guildField viaNull c.guild)

/-- The object a well-formed eris message is delivered as. -/
def ErisMessage.toJS (viaNull : Bool) (m : ErisMessage) : JSValue :=
  .obj [("id", .str m.id), ("channel", m.channel.toJS viaNull)]

/-- The object a well-formed discord.js message is delivered as. -/
def DjsMessage.toJS (viaNull : Bool) (m : DjsMessage) : JSValue :=
  .obj ([("id", .str m.id)] ++ guildField viaNull m.guild)

/-- The object a well-formed discord.js reaction is delivered as. -/
def DjsReaction.toJS (viaNull : Bool) (r : DjsReaction) : JSValue :=
  .obj [("emoji", .str r.emoji), ("message", r.message.toJS viaNull)]

/-- The value a resolver is expected to return: the guild id, or `null`. -/
def scopeOf : Option Guild → JSValue
  | some g => .str g.id
  | none => .null

/-! ## Module activation -/

/-- A loader of a module (`CommandLoader`, `ListenerLoader`; `src/Structures/Loaders`, not
part of the sources at hand), abstracted to `loadAll` acting on the state `μ` shared by the
module and the registries. It returns the state it leaves behind and the fault it raised. -/
structure Loader (μ ι : Type) where
  loadAll : ι → μ → μ × Option Fault

namespace Module

variable {μ C L : Type}

/-- Embedding of `Module.init(commands = null, listeners = null)`:
```
commands && this.commandLoader.loadAll(commands);
listeners && this.listenerLoader.loadAll(listeners);
```
An argument is `none` when it is `null` or omitted; an object is always truthy. -/
def init (commandLoader : Loader μ C) (listenerLoader : Loader μ L)
    (commands : Option C) (listeners : Option L) (m : μ) : μ × Option Fault :=
  let afterCommands : μ × Option Fault :=
    match commands with
    | some cs => commandLoader.loadAll cs m
    | none => (m, none)
  match afterCommands.2 with
  | some e => (afterCommands.1, some e)
  | none =>
    match listeners with
    | some ls => listenerLoader.loadAll ls afterCommands.1
    | none => (afterCommands.1, none)

end Module

/-! ## Message collector -/

/-- Modelled from the spec: `update(label, value)` of the keyed container, as §4.6 uses it: the
stored payload is replaced, and when the entry is no longer present "the update is
dropped". -/
def Collection.update {α : Type} (c : Collection α) (label : String) (value : α) :
    Collection α :=
  ⟨c.entries.map (fun e => if e.1 == label then (e.1, value) else e)⟩

/-- The value found under a key of an options object: the key is missing (`undefined`), it is
`null`, or it holds a value. -/
inductive JSOpt (α : Type) where
  | undefined
  | null
  | val (a : α)
  deriving DecidableEq, Repr

/-- The options object handed to the constructor and to `run`. -/
structure Options where
  timeout : JSOpt Nat
  count : JSOpt Nat
  ignoreBots : JSOpt Bool
  uID : JSOpt String
  caseSensitive : JSOpt Bool
  deriving DecidableEq, Repr

/-- The object `this._options` built by the constructor: it has exactly these four keys. -/
structure DefaultOptions where
  timeout : Nat
  count : Nat
  ignoreBots : Bool
  caseSensitive : Bool
  deriving DecidableEq, Repr

/-- The author of a message. -/
structure User where
  id : String
  bot : Bool
  deriving DecidableEq, Repr

/-- The channel a collector listens to. -/
structure Channel where
  id : String
  deriving DecidableEq, Repr

/-- A message as the collector reads it. -/
structure Message where
  id : String
  channel : Channel
  author : User
  content : String
  deriving DecidableEq, Repr

/-- The state of the promise returned by one call of `run`. A resolved promise records the
messages container as it is at the moment of resolution. -/
inductive Settlement where
  | pending
  | resolved (messages : Collection Message)
  | rejected (reason : String)
  deriving DecidableEq, Repr

/-- Events the collector itself emits. -/
inductive Signal where
  | collect (msg : Message)
  | ended
  | timedOut
  | delete (msg : Message)
  | edit (oldMsg msg : Message)
  deriving DecidableEq, Repr

/-- Events the upstream client delivers. -/
inductive ClientEvent where
  | messageCreate (msg : Message)
  | messageUpdate (oldMsg : Option Message) (msg : Message)
  | messageDelete (msg : Message)
  deriving DecidableEq, Repr

/-- State of a `MessageCollector` together with the part of its surroundings it acts on.
`onMessageCreate`, `onMessageUpdate` and `onMessageDelete` count the registrations of the
bound handlers `_boundMsgEvent`, `_boundEditEvent`, `_boundDelEvent` on the client;
`onCollect` counts the registrations of `_boundCollectEvent` for the own event `collect`;
`onceEnd` and `onceTimedOut` list the calls of `run` (by index into `promises`) whose
`once('end', ...)` and `once('timedOut', ...)` closures are still registered. -/
structure MessageCollector where
  _options : DefaultOptions
  _actualOptions : Options
  _channel : Option Channel
  messages : Collection Message
  clientUserId : String
  onMessageCreate : Nat
  onMessageUpdate : Nat
  onMessageDelete : Nat
  onCollect : Nat
  onceEnd : List Nat
  onceTimedOut : List Nat
  promises : List Settlement
  timers : List (Nat × JSOpt Nat)
  pendingEdits : List Message
  emitted : List Signal
  deriving DecidableEq, Repr

namespace JSOpt

variable {α : Type}

/-- The test `x === null || x === undefined`. -/
def isNullish : JSOpt α → Bool
  | .val _ => false
  | _ => true

end JSOpt

namespace MessageCollector

/-- `options.timeout || 60000` and `options.count || 100`: a missing, `null` or zero number is
falsy and yields the default. -/
def numberOr (o : JSOpt Nat) (d : Nat) : Nat :=
  match o with
  | .val n => if n = 0 then d else n
  | _ => d

/-- `x === undefined ? true : !!x`: only a missing key yields `true`; `null` yields `false`. -/
def flagOrTrue (o : JSOpt Bool) : Bool :=
  match o with
  | .undefined => true
  | .null => false
  | .val b => b

/-- Truthiness of a boolean option, as in `this._actualOptions.ignoreBots && ...`. -/
def flagSet (o : JSOpt Bool) : Bool :=
  match o with
  | .val b => b
  | _ => false

/-- Embedding of the constructor `new MessageCollector(client, options = {})`, for a client
whose own user id is `clientUserId`. -/
def new (clientUserId : String) (options : Options) : MessageCollector :=
  { _options :=
      { timeout := numberOr options.timeout 60000,
        count := numberOr options.count 100,
        ignoreBots := flagOrTrue options.ignoreBots,
        caseSensitive := flagOrTrue options.caseSensitive },
    _actualOptions :=
      { timeout := .undefined, count := .undefined, ignoreBots := .undefined,
        uID := .undefined, caseSensitive := .undefined },
    _channel := none,
    messages := Collection.empty,
    clientUserId := clientUserId,
    onMessageCreate := 0, onMessageUpdate := 0, onMessageDelete := 0,
    onCollect := 0, onceEnd := [], onceTimedOut := [],
    promises := [], timers := [], pendingEdits := [], emitted := [] }

/-- The loop of `run` over the keys of `this._options`:
`if (actual[key] === null || actual[key] === undefined) actual[key] = this._options[key]`. -/
def fillDefaults (d : DefaultOptions) (o : Options) : Options :=
  { timeout := if o.timeout.isNullish then .val d.timeout else o.timeout,
    count := if o.count.isNullish then .val d.count else o.count,
    ignoreBots := if o.ignoreBots.isNullish then .val d.ignoreBots else o.ignoreBots,
    uID := o.uID,
    caseSensitive :=
      if o.caseSensitive.isNullish then .val d.caseSensitive else o.caseSensitive }

/-- Embedding of `_startTimeout()`, called by the run of index `k`:
`setTimeout(() => this.emit('timedOut'), this._actualOptions.timeout)`. -/
def _startTimeout (k : Nat) (c : MessageCollector) : MessageCollector :=
  { c with timers := c.timers ++ [(k, c._actualOptions.timeout)] }

/-- Embedding of `run(channel, options = {})`; the promise it returns is the last entry of
`promises`. -/
def run (channel : Channel) (options : Options) (c : MessageCollector) : MessageCollector :=
  let k := c.promises.length
  _startTimeout k
    { c with
      _channel := some channel,
      _actualOptions := fillDefaults c._options options,
      onMessageCreate := c.onMessageCreate + 1,
      onMessageUpdate := c.onMessageUpdate + 1,
      onMessageDelete := c.onMessageDelete + 1,
      onCollect := c.onCollect + 1,
      onceEnd := c.onceEnd ++ [k],
      onceTimedOut := c.onceTimedOut ++ [k],
      promises := c.promises ++ [.pending] }

/-- Embedding of `_onEnd()`: three `this.client.off(...)` calls, each of which removes one
registration of the bound handler, and `this.off('collect', this._boundCollectEvent)`, which
removes every registration of that handler. -/
def _onEnd (c : MessageCollector) : MessageCollector :=
  { c with
    onMessageCreate := c.onMessageCreate - 1,
    onMessageUpdate := c.onMessageUpdate - 1,
    onMessageDelete := c.onMessageDelete - 1,
    onCollect := 0 }

/-- Settling the promise of run `k`: `resolve` and `reject` only act on a pending promise. -/
def settle (k : Nat) (o : Settlement) (c : MessageCollector) : MessageCollector :=
  { c with promises :=
      match c.promises.get? k with
      | some .pending => c.promises.set k o
      | _ => c.promises }

/-- The closure registered by `this.once('end', ...)` in run `k`:
`this._onEnd(); return resolve(this.messages);` -/
def endHandler (c : MessageCollector) (k : Nat) : MessageCollector :=
  let c1 := _onEnd c
  settle k (.resolved c1.messages) c1

/-- The closure registered by `this.once('timedOut', ...)` in run `k`:
`this._onEnd(); return reject('TIMEOUT');` -/
def timedOutHandler (c : MessageCollector) (k : Nat) : MessageCollector :=
  settle k (.rejected "TIMEOUT") (_onEnd c)

/-- Embedding of `end()`, that is `this.emit('end')`: every `once` closure registered for
`end` is removed and called. -/
def «end» (c : MessageCollector) : MessageCollector :=
  c.onceEnd.foldl endHandler { c with onceEnd := [], emitted := c.emitted ++ [.ended] }

/-- The timer callback `this.emit('timedOut')`: every `once` closure registered for
`timedOut` is removed and called. -/
def emitTimedOut (c : MessageCollector) : MessageCollector :=
  c.onceTimedOut.foldl timedOutHandler
    { c with onceTimedOut := [], emitted := c.emitted ++ [.timedOut] }

/-- The comparison `this.messages.size >= this._actualOptions.count`; a `null` count converts
to `0`, a missing one to `NaN`, which compares false. -/
def reachedCount (size : Nat) (count : JSOpt Nat) : Bool :=
  match count with
  | .val n => decide (n ≤ size)
  | .null => true
  | .undefined => false

/-- Embedding of `_onCollectEvent()`:
`if (this.messages.size >= this._actualOptions.count) this.end();` -/
def _onCollectEvent (c : MessageCollector) : MessageCollector :=
  if reachedCount c.messages.size c._actualOptions.count then c.«end» else c

/-- The call `this.emit('collect', msg)`: the handlers registered when the emission starts are
called in turn. -/
def emitCollect (msg : Message) (c : MessageCollector) : MessageCollector :=
  Nat.iterate _onCollectEvent c.onCollect { c with emitted := c.emitted ++ [.collect msg] }

/-- The test `this._actualOptions.uID && msg.author.id !== this._actualOptions.uID`; the empty
string is falsy. -/
def otherUser (uID : JSOpt String) (authorId : String) : Bool :=
  match uID with
  | .val u => u != "" && authorId != u
  | _ => false

/-- Embedding of `_onMsgCreate(msg)`, with `toLowerCase` standing for
`String.prototype.toLowerCase`. Before the first `run` there is no `this._channel`, and
reading its `id` raises a `TypeError`. -/
def _onMsgCreate (toLowerCase : String → String) (msg : Message) (c : MessageCollector) :
    MessageCollector × Option Fault :=
  match c._channel with
  | none => (c, some (.typeError "Cannot read property 'id' of undefined"))
  | some channel =>
    if msg.channel.id != channel.id then (c, none)
    else if msg.author.id == c.clientUserId then (c, none)
    else if flagSet c._actualOptions.ignoreBots && msg.author.bot then (c, none)
    else if otherUser c._actualOptions.uID msg.author.id then (c, none)
    else
      let msg1 : Message :=
        if !flagSet c._actualOptions.caseSensitive then
          { msg with content := toLowerCase msg.content }
        else msg
      match c.messages.add msg1.id msg1 with
      | .error e => (c, some e)
      | .ok ms => (emitCollect msg1 { c with messages := ms }, none)

/-- Embedding of `_onMsgDelete(msg)`. -/
def _onMsgDelete (msg : Message) (c : MessageCollector) : MessageCollector :=
  if c.messages.has msg.id then
    { c with messages := (c.messages.remove msg.id).2, emitted := c.emitted ++ [.delete msg] }
  else c

/-- Embedding of `_onMsgEdit(oldMsg, msg)` up to its `await this.axon.utils.sleep(500)`: the
replacement of the stored payload is left pending. -/
def _onMsgEdit (oldMsg : Option Message) (msg : Message) (c : MessageCollector) :
    MessageCollector :=
  match oldMsg with
  | none => c
  | some old =>
    if c.messages.has old.id then
      { c with emitted := c.emitted ++ [.edit old msg], pendingEdits := c.pendingEdits ++ [msg] }
    else c

/-- The rest of `_onMsgEdit` once the sleep of the oldest pending edit is over:
`this.messages.update(msg.id, msg)`. -/
def resumeEdit (c : MessageCollector) : MessageCollector :=
  match c.pendingEdits with
  | [] => c
  | msg :: rest => { c with messages := c.messages.update msg.id msg, pendingEdits := rest }

/-- Calling a handler once per registration, as an emitter does; a fault raised by a handler
propagates out of `emit` and the remaining registrations are not called. -/
def callEach (h : MessageCollector → MessageCollector × Option Fault) :
    Nat → MessageCollector → MessageCollector × Option Fault
  | 0, c => (c, none)
  | n + 1, c =>
    match h c with
    | (c1, some e) => (c1, some e)
    | (c1, none) => callEach h n c1

/-- The client emitting an event: the handlers the collector has registered for it run. -/
def clientEmit (toLowerCase : String → String) (ev : ClientEvent) (c : MessageCollector) :
    MessageCollector × Option Fault :=
  match ev with
  | .messageCreate msg => callEach (_onMsgCreate toLowerCase msg) c.onMessageCreate c
  | .messageUpdate oldMsg msg =>
    callEach (fun x => (_onMsgEdit oldMsg msg x, none)) c.onMessageUpdate c
  | .messageDelete msg => callEach (fun x => (_onMsgDelete msg x, none)) c.onMessageDelete c

/-- The deadline timer of run `k` firing. Only a timer that `_startTimeout` has armed and
that is still pending can fire: it is then spent and its callback `this.emit('timedOut')`
runs. Without such a timer nothing happens. -/
def fireTimeout (k : Nat) (c : MessageCollector) : MessageCollector :=
  if c.timers.any (fun t => t.1 == k) then
    emitTimedOut { c with timers := c.timers.filter (fun t => !(t.1 == k)) }
  else c

/-- A sequence of creation events delivered by the client, in order. -/
def deliver (toLowerCase : String → String) (msgs : List Message) (c : MessageCollector) :
    MessageCollector :=
  msgs.foldl (fun x m => (clientEmit toLowerCase (.messageCreate m) x).1) c

/-- Embedding of `delete(mID)`, with `idTest` standing for `this.axon.utils.id.test`:
```
if (!this.axon.utils.id.test(mID)) throw new Error(`Value ${mID} is NOT a ID`);
if (!this.messages.has(mID)) throw new Error(`MESSAGE ${mID} NOT FOUND`);
this.messages.remove(mID);
return this.messages;
``` -/
def delete (idTest : String → Bool) (mID : String) (c : MessageCollector) :
    MessageCollector × Except Fault (Collection Message) :=
  if !idTest mID then (c, .error (.error ("Value " ++ mID ++ " is NOT a ID")))
  else if !c.messages.has mID then (c, .error (.error ("MESSAGE " ++ mID ++ " NOT FOUND")))
  else
    let c1 := { c with messages := (c.messages.remove mID).2 }
    (c1, .ok c1.messages)

/-- The filter of §4.6 in the words of the spec: matching channel, not the client itself, bot
exclusion, optional originator. -/
def accepts (c : MessageCollector) (msg : Message) : Bool :=
  (c._channel.map (fun ch => ch.id)) == some msg.channel.id
    && msg.author.id != c.clientUserId
    && !(flagSet c._actualOptions.ignoreBots && msg.author.bot)
    && !otherUser c._actualOptions.uID msg.author.id

/-- The payload stored for an accepted message: its content is lowercased unless the run is
case sensitive. -/
def stored (toLowerCase : String → String) (c : MessageCollector) (msg : Message) : Message :=
  if flagSet c._actualOptions.caseSensitive then msg
  else { msg with content := toLowerCase msg.content }

/-- None of the four handlers is registered any more. -/
def released (c : MessageCollector) : Prop :=
  c.onMessageCreate = 0 ∧ c.onMessageUpdate = 0 ∧ c.onMessageDelete = 0 ∧ c.onCollect = 0

instance (c : MessageCollector) : Decidable c.released := by
  unfold released; infer_instance

/-- A sample of `axon.utils.id`: a non-empty string of decimal digits. -/
def digitsOnly (s : String) : Bool :=
  !s.data.isEmpty && s.data.all Char.isDigit

/-- The collector is inside its first call of `run`: each of the four handlers is registered
once, the two `once` closures of that run are registered, and its promise is pending. -/
structure Running (c : MessageCollector) : Prop where
  create : c.onMessageCreate = 1
  update : c.onMessageUpdate = 1
  remove : c.onMessageDelete = 1
  collect : c.onCollect = 1
  ended : c.onceEnd = [0]
  timedOut : c.onceTimedOut = [0]
  promise : c.promises = [.pending]

/-- What can happen while a collector runs: the client delivers an event, or the settling
delay of the oldest pending edit is over. -/
inductive Step where
  | client (ev : ClientEvent)
  | editSettled
  deriving DecidableEq, Repr

/-- One step of a running collector; a fault raised by a handler stays with the client. -/
def step (toLowerCase : String → String) (st : Step) (c : MessageCollector) :
    MessageCollector :=
  match st with
  | .client ev => (clientEmit toLowerCase ev c).1
  | .editSettled => resumeEdit c

/-- A sequence of steps, in order. -/
def steps (toLowerCase : String → String) (tr : List Step) (c : MessageCollector) :
    MessageCollector :=
  tr.foldl (fun x st => step toLowerCase st x) c

/-- The creation events of a trace that the filter of `c` accepts. -/
def acceptedCreations (c : MessageCollector) (tr : List Step) : List Message :=
  tr.filterMap (fun st =>
    match st with
    | .client (.messageCreate m) => if accepts c m then some m else none
    | _ => none)

/-- The ids of the messages for which a trace holds a deletion event. -/
def deletedIds (tr : List Step) : List String :=
  tr.filterMap (fun st =>
    match st with
    | .client (.messageDelete m) => some m.id
    | _ => none)

/-- Two states of a collector agree on what the filter reads: the channel, the options of
the run and the client's own user id. -/
def SameSetup (c d : MessageCollector) : Prop :=
  d._channel = c._channel ∧ d._actualOptions = c._actualOptions ∧
    d.clientUserId = c.clientUserId

end MessageCollector

/-! ## Sample inputs -/

/-- A listener `ping` of the module `core`, bound to `messageCreate`. -/
def pingListener : Listener :=
  { label := "ping", eventName := "messageCreate", module := { label := some "core" } }

/-- A listener `pong` of the module `core`, bound to `messageCreate`. -/
def pongListener : Listener :=
  { label := "pong", eventName := "messageCreate", module := { label := some "core" } }

/-- A state in which nothing is registered. -/
def emptyAxon : Axon EventTable :=
  { registry := Collection.empty, eventManager := { listeners := [], upstream := [] },
    effects := [] }

/-- The state reached from `emptyAxon` by registering `ping` and then `pong`. -/
def sampleAxon : Axon EventTable :=
  { registry := ⟨[("ping", pingListener), ("pong", pongListener)]⟩,
    eventManager :=
      { listeners := [("messageCreate", [pingListener, pongListener])],
        upstream := [(true, "messageCreate")] },
    effects :=
      [.registryAdd "ping" pingListener, .registerListener pingListener,
       .registryAdd "pong" pongListener, .registerListener pongListener] }

/-- An eris message that lacks the `channel` field. -/
def messageWithoutChannel : JSValue := .obj [("id", .str "1"), ("content", .str "hi")]

/-- A discord.js reaction that lacks the `message` field. -/
def reactionWithoutMessage : JSValue := .obj [("emoji", .str "x")]

/-- The channel `7` of the guild `42`. -/
def guildChannel : JSValue := .obj [("id", .str "7"), ("guild", .obj [("id", .str "42")])]

/-- An eris message sent in the channel `7` of the guild `42`. -/
def guildMessage : JSValue := .obj [("id", .str "1"), ("channel", guildChannel)]

/-- Labels of the commands and of the listeners a sample module has loaded. -/
structure LoadedLabels where
  commands : List String
  listeners : List String
  deriving DecidableEq, Repr

/-- Registering labels one after the other, stopping at the first label already present. -/
def loadLabels : List String → List String → List String × Option Fault
  | [], acc => (acc, none)
  | l :: ls, acc =>
    if acc.contains l then
      (acc, some (.axonError ("Register [" ++ l ++ "]: Already registered!") "REGISTRY" none))
    else loadLabels ls (acc ++ [l])

/-- A sample command loader: it registers the given labels among the commands. -/
def sampleCommandLoader : Loader LoadedLabels (List String) :=
  { loadAll := fun ls m =>
      ({ m with commands := (loadLabels ls m.commands).1 }, (loadLabels ls m.commands).2) }

/-- A sample listener loader: it registers the given labels among the listeners. -/
def sampleListenerLoader : Loader LoadedLabels (List String) :=
  { loadAll := fun ls m =>
      ({ m with listeners := (loadLabels ls m.listeners).1 }, (loadLabels ls m.listeners).2) }

/-- A module in which the listener `ready` is loaded already. -/
def sampleLoaded : LoadedLabels := { commands := [], listeners := ["ready"] }

/-- A sample of `String.prototype.toLowerCase`, exact on ASCII text. -/
def asciiLower (s : String) : String := String.mk (s.data.map Char.toLower)

/-- The options object `{}`. -/
def noOptions : Options :=
  { timeout := .undefined, count := .undefined, ignoreBots := .undefined, uID := .undefined,
    caseSensitive := .undefined }

/-- The options object with only `count` set. -/
def countOptions (n : Nat) : Options :=
  { timeout := .undefined, count := .val n, ignoreBots := .undefined, uID := .undefined,
    caseSensitive := .undefined }

/-- The channel the sample runs listen to. -/
def lobby : Channel := { id := "100" }

/-- A message of the user `u` in the channel `lobby`. -/
def lobbyMessage (id u content : String) : Message :=
  { id := id, channel := lobby, author := { id := u, bot := false }, content := content }

/-- A message in another channel. -/
def elsewhereMessage : Message :=
  { id := "9", channel := { id := "200" }, author := { id := "u1", bot := false },
    content := "Off" }

/-- A collector of the client `bot` holding two messages, one of them under a key that is not
made of digits. -/
def heldCollector : MessageCollector :=
  { MessageCollector.new "bot" noOptions with
    messages := ⟨[("11", lobbyMessage "11" "u1" "a"), ("x-12", lobbyMessage "x-12" "u2" "b")]⟩ }

/-- The options object with only `uID` set. -/
def userOptions (u : String) : Options :=
  { timeout := .undefined, count := .undefined, ignoreBots := .undefined, uID := .val u,
    caseSensitive := .undefined }

/-- The `collect` signals among a list of emitted signals, with the message each carries. -/
def collectSignals (es : List Signal) : List Message :=
  es.filterMap (fun e =>
    match e with
    | .collect m => some m
    | _ => none)

/-- The option `uID` is unset for the test `this._actualOptions.uID && ...`: the key is
missing, it is `null`, or it holds the empty string. -/
def uIDUnset (o : JSOpt String) : Prop :=
  o = .undefined ∨ o = .null ∨ o = .val ""

/-- A collector of the client `bot` that runs on `lobby`, holds the message `11` of `u1`,
and has one edit of that message waiting for its settling delay. -/
def editingCollector : MessageCollector :=
  MessageCollector.steps asciiLower
    [.client (.messageCreate (lobbyMessage "11" "u1" "One")),
     .client (.messageUpdate (some (lobbyMessage "11" "u1" "One"))
       (lobbyMessage "11" "u1" "Uno"))]
    (MessageCollector.run lobby noOptions (MessageCollector.new "bot" noOptions))

/-- The state `d` differs from `c` at most by registrations, promises and emitted signals
other than `collect`: the container, what the filter reads and the timers are the same. -/
def Quietly (c d : MessageCollector) : Prop :=
  d.messages = c.messages ∧ MessageCollector.SameSetup c d ∧ d.timers = c.timers ∧
    ∃ extra, d.emitted = c.emitted ++ extra ∧ collectSignals extra = []

/-- The states a collector can get into: the constructor builds it, and from then on it is
changed by calls of `run`, by what the client delivers and by edits settling, by armed
deadline timers firing, by calls of `end()` and by calls of `delete(mID)`, in any order. -/
inductive Reachable (toLowerCase : String → String) (idTest : String → Bool) :
    MessageCollector → Prop where
  | new (clientUserId : String) (options : Options) :
    Reachable toLowerCase idTest (MessageCollector.new clientUserId options)
  | run (c : MessageCollector) (channel : Channel) (options : Options) :
    Reachable toLowerCase idTest c →
    Reachable toLowerCase idTest (MessageCollector.run channel options c)
  | step (c : MessageCollector) (st : MessageCollector.Step) :
    Reachable toLowerCase idTest c →
    Reachable toLowerCase idTest (MessageCollector.step toLowerCase st c)
  | timeout (c : MessageCollector) (k : Nat) :
    Reachable toLowerCase idTest c →
    Reachable toLowerCase idTest (MessageCollector.fireTimeout k c)
  | ended (c : MessageCollector) :
    Reachable toLowerCase idTest c → Reachable toLowerCase idTest c.«end»
  | delete (c : MessageCollector) (mID : String) :
    Reachable toLowerCase idTest c →
    Reachable toLowerCase idTest (MessageCollector.delete idTest mID c).1

/-- What holds of every state a collector can get into: no bound client handler is
registered more often than there are `once('timedOut')` closures, and the run of every
pending promise still has its `once('timedOut')` closure registered. -/
def Sound (c : MessageCollector) : Prop :=
  c.onMessageCreate ≤ c.onceTimedOut.length ∧
    c.onMessageUpdate ≤ c.onceTimedOut.length ∧
    c.onMessageDelete ≤ c.onceTimedOut.length ∧
    ∀ k, c.promises.get? k = some .pending → k ∈ c.onceTimedOut

/-- A running collector of the client `bot` on `lobby` that holds the message `11`. -/
def holdingCollector : MessageCollector :=
  MessageCollector.steps asciiLower [.client (.messageCreate (lobbyMessage "11" "u1" "One"))]
    (MessageCollector.run lobby noOptions (MessageCollector.new "bot" noOptions))

/-! # Theorems -/

/-! ## Keyed container lemmas -/

namespace Collection

variable {α : Type}

theorem has_eq_false_iff (c : Collection α) (label : String) :
    c.has label = false ↔ ∀ e ∈ c.entries, e.1 ≠ label := by
  simp [has]

theorem get_eq_none_of_has_false (c : Collection α) (label : String)
    (h : c.has label = false) : c.get label = none := by
  rw [has_eq_false_iff] at h
  simp only [get, Option.map_eq_none', List.find?_eq_none]
  intro e he
  simpa using h e he

theorem has_remove_self (c : Collection α) (label : String) :
    (c.remove label).2.has label = false := by
  simp [remove, has]

theorem get_remove_of_ne (c : Collection α) (label other : String) (h : other ≠ label) :
    (c.remove label).2.get other = c.get other := by
  obtain ⟨es⟩ := c
  simp only [remove, get]
  congr 1
  induction es with
  | nil => rfl
  | cons e es ih =>
    by_cases h1 : e.1 = label
    · have h2 : (e.1 == other) = false := by
        simp only [beq_eq_false_iff_ne, ne_eq]
        exact fun h3 => h (h3.symm.trans h1)
      have h3 : (e.1 == label) = true := by simpa using h1
      rw [List.filter_cons, List.find?_cons]
      simp only [h3, h2, Bool.not_true, Bool.false_eq_true, if_false]
      exact ih
    · have h3 : (e.1 == label) = false := by simpa using h1
      rw [List.filter_cons]
      simp only [h3, Bool.not_false, if_true, List.find?_cons]
      cases h2 : (e.1 == other)
      · exact ih
      · rfl

theorem add_of_has_false (c : Collection α) (label : String) (v : α)
    (h : c.has label = false) : c.add label v = .ok ⟨c.entries ++ [(label, v)]⟩ := by
  simp [add, h]

theorem has_append_self (es : List (String × α)) (label : String) (v : α) :
    (Collection.mk (es ++ [(label, v)])).has label = true := by
  simp [has]

theorem get_append_of_has_false (c : Collection α) (label : String) (v : α)
    (h : c.has label = false) :
    (Collection.mk (c.entries ++ [(label, v)])).get label = some v := by
  rw [has_eq_false_iff] at h
  have h1 : c.entries.find? (fun e => e.1 == label) = none := by
    simp only [List.find?_eq_none]
    intro e he
    simpa using h e he
  simp [get, List.find?_append, h1]

end Collection

/-! ## ListenerRegistry -/

namespace ListenerRegistry

variable {σ : Type}

theorem sampleAxon_reached :
    (register EventTable.manager "pong" pongListener
      (register EventTable.manager "ping" pingListener emptyAxon).1) = (sampleAxon, none) := by
  decide

/-- C1: when the registry already has the label, `register` fails with the
duplicate-registration `AxonError` carrying `listener.module.label`, and the failed call
changes nothing: the state is the one before the call, so the registry has the same size and
the same value under the label, and no call to `eventManager.registerListener` was issued. -/
theorem register_duplicate_rejected (em : EventManager σ) (s : Axon σ) (label : String)
    (listener : Listener) (h : s.registry.has label = true) :
    (register em label listener s).2 =
        some (.axonError ("Register [" ++ label ++ "]: Already registered!")
          "LISTENER-REGISTRY" listener.module.label) ∧
      (register em label listener s).1 = s ∧
      (register em label listener s).1.registry.size = s.registry.size ∧
      (register em label listener s).1.registry.get label = s.registry.get label ∧
      registerCalls ((register em label listener s).1.effects.drop s.effects.length) = [] := by
  simp [register, h, registerCalls]

theorem register_duplicate_rejected_witness :
    sampleAxon.registry.has "ping" = true ∧
      (register EventTable.manager "ping" pongListener sampleAxon).2 =
        some (.axonError "Register [ping]: Already registered!" "LISTENER-REGISTRY"
          (some "core")) ∧
      (register EventTable.manager "ping" pongListener sampleAxon).1 = sampleAxon :=
  ⟨by decide,
   (register_duplicate_rejected EventTable.manager sampleAxon "ping" pongListener
      (by decide)).1,
   (register_duplicate_rejected EventTable.manager sampleAxon "ping" pongListener
      (by decide)).2.1⟩

/-- C2 (the code at the failing input): with nothing registered, `unregister("ping")` raises a
`TypeError` from reading `listener.module` on the missing listener instead of the
`AxonError` "Unregister: Not registered!", and `unregister("ping", listener)` with an explicit
listener raises nothing at all and issues `unregisterListener`. -/
theorem unregister_absent_label_faults :
    unregister EventTable.manager "ping" none emptyAxon =
        (emptyAxon, some (.typeError "Cannot read property 'module' of undefined")) ∧
      (unregister EventTable.manager "ping" (some pingListener) emptyAxon).2 = none ∧
      unregisterCalls (unregister EventTable.manager "ping" (some pingListener) emptyAxon).1.effects
        = [("messageCreate", "ping")] := by
  decide

theorem unregister_absent_no_listener (em : EventManager σ) (s : Axon σ) (label : String)
    (h : s.registry.get label = none) :
    unregister em label none s =
      (s, some (.typeError "Cannot read property 'module' of undefined")) := by
  simp [unregister, h]

theorem unregister_with (em : EventManager σ) (s : Axon σ) (label : String)
    (given : Option Listener) (l : Listener)
    (h : given = some l ∨ (given = none ∧ s.registry.get label = some l)) :
    (unregister em label given s).1.registry = (s.registry.remove label).2 ∧
      (unregister em label given s).1.eventManager =
        (em.unregisterListener l.eventName l.label s.eventManager).1 ∧
      (unregister em label given s).2 =
        (em.unregisterListener l.eventName l.label s.eventManager).2 ∧
      unregisterCalls ((unregister em label given s).1.effects.drop s.effects.length) =
        [(l.eventName, l.label)] := by
  rcases h with h | ⟨h, h1⟩
  · subst h
    unfold unregister
    cases h2 : (em.unregisterListener l.eventName l.label s.eventManager).2 <;>
      simp [unregisterCalls, List.filterMap_cons, h2]
  · subst h
    unfold unregister
    simp only [h1]
    cases h2 : (em.unregisterListener l.eventName l.label s.eventManager).2 <;>
      simp [unregisterCalls, List.filterMap_cons, h2]

/-- C9 (counterexample): with an EventManager whose subscription step fails, `register` on an
unregistered label fails, and the registry does contain the label after the failed call: the
claim that no dangling entry is left does not hold. -/
theorem register_failed_subscription_keeps_entry :
    ¬ ((register EventTable.failing "ping" pingListener emptyAxon).2 ≠ none →
        (register EventTable.failing "ping" pingListener emptyAxon).1.registry.has "ping"
          = false) := by
  decide

/-- C9 (amended): on a label not yet registered, `register` inserts `label -> listener` as
the last entry of the registry and then issues exactly one
`eventManager.registerListener(listener)` call, the insertion coming first; the outcome of `register` is the outcome of that call, and
whether or not the call fails there is no rollback: the registry holds `listener` under
`label` afterwards. -/
theorem register_inserts_then_subscribes (em : EventManager σ) (s : Axon σ) (label : String)
    (listener : Listener) (h : s.registry.has label = false) :
    (register em label listener s).1.effects =
        s.effects ++ [.registryAdd label listener, .registerListener listener] ∧
      (register em label listener s).1.registry.entries =
        s.registry.entries ++ [(label, listener)] ∧
      (register em label listener s).1.registry.get label = some listener ∧
      (register em label listener s).1.eventManager =
        (em.registerListener listener s.eventManager).1 ∧
      (register em label listener s).2 = (em.registerListener listener s.eventManager).2 := by
  have h1 := Collection.get_append_of_has_false s.registry label listener h
  simp [register, h, Collection.add_of_has_false, h1]

theorem register_inserts_then_subscribes_witness :
    emptyAxon.registry.has "ping" = false ∧
      (register EventTable.failing "ping" pingListener emptyAxon).1.registry.get "ping"
        = some pingListener ∧
      (register EventTable.failing "ping" pingListener emptyAxon).2 =
        (EventTable.failing.registerListener pingListener emptyAxon.eventManager).2 :=
  ⟨by decide,
   (register_inserts_then_subscribes EventTable.failing emptyAxon "ping" pingListener
      (by decide)).2.2.1,
   (register_inserts_then_subscribes EventTable.failing emptyAxon "ping" pingListener
      (by decide)).2.2.2.2⟩

/-- C10 (the code at the failing input): with `ping` and `pong` registered,
`unregister("absent", pingListener)` does not fail although nothing is registered under
`absent`: the registry is left as it was, `ping` included, and yet
`unregisterListener("messageCreate", "ping")` is issued once, so the EventManager drops the
subscription of `ping`. One effect occurred without the other: neither "both" nor
"neither" holds between the states before and after the call. -/
theorem unregister_absent_with_listener_unsubscribes :
    sampleAxon.registry.has "absent" = false ∧
      (unregister EventTable.manager "absent" (some pingListener) sampleAxon).2 = none ∧
      (unregister EventTable.manager "absent" (some pingListener) sampleAxon).1.registry =
        sampleAxon.registry ∧
      unregisterCalls ((unregister EventTable.manager "absent" (some pingListener)
        sampleAxon).1.effects.drop sampleAxon.effects.length) = [("messageCreate", "ping")] ∧
      sampleAxon.eventManager.listenersOf "messageCreate" = [pingListener, pongListener] ∧
      (unregister EventTable.manager "absent" (some pingListener)
        sampleAxon).1.eventManager.listenersOf "messageCreate" = [pongListener] ∧
      ¬ BothOrNeither "absent" sampleAxon
        (unregister EventTable.manager "absent" (some pingListener) sampleAxon).1 := by
  refine ⟨by decide, by decide, by decide, by decide, by decide, by decide, ?_⟩
  intro h
  rcases h with ⟨l, h1, _⟩ | ⟨_, _, h3⟩
  · have h4 : sampleAxon.registry.get "absent" = none := by decide
    rw [h4] at h1
    cases h1
  · exact absurd h3 (by decide)

/-- On the path that does look the label up: when `unregister(label, listener)` is called
without a listener argument, or with the listener that is stored under `label`, then either
both effects occurred (the entry under `label` is gone and `unregisterListener` was issued
exactly once, with the `eventName` and the `label` field of the stored listener), or neither
occurred (the call failed and the state is the one before the call); and every entry under
another label is untouched. -/
theorem unregister_both_or_neither (em : EventManager σ) (s : Axon σ) (label : String)
    (given : Option Listener) (h : given = none ∨ given = s.registry.get label) :
    ((∃ l, s.registry.get label = some l ∧
          (unregister em label given s).1.registry.has label = false ∧
          unregisterCalls ((unregister em label given s).1.effects.drop s.effects.length) =
            [(l.eventName, l.label)] ∧
          (unregister em label given s).1.eventManager =
            (em.unregisterListener l.eventName l.label s.eventManager).1) ∨
        ((unregister em label given s).1 = s ∧ (unregister em label given s).2 ≠ none)) ∧
      ∀ other, other ≠ label →
        (unregister em label given s).1.registry.get other = s.registry.get other := by
  cases hg : s.registry.get label with
  | none =>
    have hn : given = none := by
      rcases h with h | h
      · exact h
      · rw [h, hg]
    subst hn
    rw [unregister_absent_no_listener em s label hg]
    exact ⟨Or.inr ⟨rfl, by simp⟩, fun _ _ => rfl⟩
  | some l =>
    have hl : given = some l ∨ (given = none ∧ s.registry.get label = some l) := by
      rcases h with h | h
      · exact Or.inr ⟨h, hg⟩
      · exact Or.inl (h.trans hg)
    obtain ⟨h1, h2, _, h4⟩ := unregister_with em s label given l hl
    refine ⟨Or.inl ⟨l, rfl, ?_, h4, h2⟩, ?_⟩
    · rw [h1]; exact Collection.has_remove_self _ _
    · intro other ho
      rw [h1]; exact Collection.get_remove_of_ne _ _ _ ho

theorem unregister_both_or_neither_witness :
    ((none : Option Listener) = none ∨ none = sampleAxon.registry.get "ping") ∧
      (unregister EventTable.manager "ping" none sampleAxon).1.registry.get "pong"
        = sampleAxon.registry.get "pong" :=
  ⟨Or.inl rfl,
   (unregister_both_or_neither EventTable.manager sampleAxon "ping" none (Or.inl rfl)).2
      "pong" (by decide)⟩

end ListenerRegistry

/-! ## Scope resolvers -/

namespace JSValue

theorem getProp_ok_of_not_nullish (v : JSValue) (name : String) (h : v.nullish = false) :
    ∃ w, v.getProp name = .ok w := by
  cases v with
  | undefined => simp [nullish] at h
  | null => simp [nullish] at h
  | bool b => exact ⟨_, rfl⟩
  | num n => exact ⟨_, rfl⟩
  | str s => exact ⟨_, rfl⟩
  | obj fields =>
    simp only [getProp]
    split
    · exact ⟨_, rfl⟩
    · exact ⟨_, rfl⟩

theorem nullish_of_not_truthy_or (v : JSValue) (h : v.truthy = true) : v.nullish = false := by
  cases v <;> simp_all [truthy, nullish]

end JSValue

/-- The conditional `container.guild ? container.guild.id : null` on a container that is
neither `null` nor `undefined` never throws. -/
theorem guild_scope_total (container : JSValue) (h : container.nullish = false) :
    ∃ v, Djs.ChannelDeleteHandler.handle container = .ok v ∧
      (∀ g, container.getProp "guild" = .ok g → g.truthy = false → v = .null) := by
  obtain ⟨g, hg⟩ := JSValue.getProp_ok_of_not_nullish container "guild" h
  cases ht : g.truthy with
  | false =>
    refine ⟨.null, ?_, fun _ _ _ => rfl⟩
    simp [Djs.ChannelDeleteHandler.handle, hg, ht, bind, Except.bind, pure, Except.pure]
  | true =>
    obtain ⟨w, hw⟩ := JSValue.getProp_ok_of_not_nullish g "id"
      (JSValue.nullish_of_not_truthy_or g ht)
    refine ⟨w, ?_, ?_⟩
    · simp [Djs.ChannelDeleteHandler.handle, hg, ht, hw, bind, Except.bind]
    · intro g1 hg1 ht1
      rw [hg] at hg1
      cases hg1
      rw [ht] at ht1
      cases ht1

theorem eris_create_eq (message channel : JSValue)
    (h : message.getProp "channel" = .ok channel) :
    Eris.MessageCreateHandler.handle message = Djs.ChannelDeleteHandler.handle channel := by
  simp only [Eris.MessageCreateHandler.handle, Djs.ChannelDeleteHandler.handle, h, bind,
    Except.bind]

theorem eris_removeAll_eq (message channel : JSValue)
    (h : message.getProp "channel" = .ok channel) :
    Eris.MessageReactionRemoveAllHandler.handle message =
      Djs.ChannelDeleteHandler.handle channel := by
  simp only [Eris.MessageReactionRemoveAllHandler.handle, Djs.ChannelDeleteHandler.handle, h,
    bind, Except.bind]

theorem djs_reaction_eq (reaction message : JSValue)
    (h : reaction.getProp "message" = .ok message) :
    Djs.MessageReactionRemoveHandler.handle reaction =
      Djs.ChannelDeleteHandler.handle message := by
  simp only [Djs.MessageReactionRemoveHandler.handle, Djs.ChannelDeleteHandler.handle, h,
    bind, Except.bind]

/-- C7 (counterexample): on a payload object without the `channel` field the eris
`MessageCreateHandler.handle` throws a `TypeError` instead of returning `null`, and so does
the discord.js `MessageReactionRemoveHandler.handle` on a reaction without a `message`
field. -/
theorem handle_throws_on_missing_container :
    messageWithoutChannel.isObject = true ∧
      Eris.MessageCreateHandler.handle messageWithoutChannel =
        .error (.typeError "Cannot read property 'guild' of undefined") ∧
      reactionWithoutMessage.isObject = true ∧
      Djs.MessageReactionRemoveHandler.handle reactionWithoutMessage =
        .error (.typeError "Cannot read property 'guild' of undefined") := by
  refine ⟨rfl, ?_, rfl, ?_⟩ <;> rfl

/-- C7 (amended): `handle` does not throw as long as the object that holds the `guild` field
is there. The discord.js `ChannelDeleteHandler.handle` is total on every payload that is not
`null` or `undefined`; the eris `MessageCreateHandler.handle` and
`MessageReactionRemoveAllHandler.handle` do not throw on a payload whose `channel` is neither
`null` nor `undefined`, and the discord.js `MessageReactionRemoveHandler.handle` does not
throw on a payload whose `message` is neither `null` nor `undefined`. In each case the
result is `null` whenever the `guild` field is missing or falsy. -/
theorem handle_total_when_container_present (payload inner : JSValue)
    (hp : payload.nullish = false) (hi : inner.nullish = false) :
    (∃ v, Djs.ChannelDeleteHandler.handle payload = .ok v ∧
        (∀ g, payload.getProp "guild" = .ok g → g.truthy = false → v = .null)) ∧
      (payload.getProp "channel" = .ok inner →
        ∃ v, Eris.MessageCreateHandler.handle payload = .ok v ∧
          Eris.MessageReactionRemoveAllHandler.handle payload = .ok v ∧
          (∀ g, inner.getProp "guild" = .ok g → g.truthy = false → v = .null)) ∧
      (payload.getProp "message" = .ok inner →
        ∃ v, Djs.MessageReactionRemoveHandler.handle payload = .ok v ∧
          (∀ g, inner.getProp "guild" = .ok g → g.truthy = false → v = .null)) := by
  refine ⟨guild_scope_total payload hp, ?_, ?_⟩
  · intro h
    obtain ⟨v, hv, hnull⟩ := guild_scope_total inner hi
    exact ⟨v, (eris_create_eq payload inner h).trans hv,
      (eris_removeAll_eq payload inner h).trans hv, hnull⟩
  · intro h
    obtain ⟨v, hv, hnull⟩ := guild_scope_total inner hi
    exact ⟨v, (djs_reaction_eq payload inner h).trans hv, hnull⟩

theorem handle_total_when_container_present_witness :
    guildMessage.nullish = false ∧ guildChannel.nullish = false ∧
      guildMessage.getProp "channel" = .ok guildChannel ∧
      ∃ v, Eris.MessageCreateHandler.handle guildMessage = .ok v ∧
        Eris.MessageReactionRemoveAllHandler.handle guildMessage = .ok v ∧
        (∀ g, guildChannel.getProp "guild" = .ok g → g.truthy = false → v = .null) :=
  ⟨rfl, rfl, rfl,
   (handle_total_when_container_present guildMessage guildChannel rfl rfl).2.1 rfl⟩

/-- C8: on a well-formed payload each scope resolver returns the id of the containing guild
when there is one and `null` otherwise, whether an absent guild is delivered as `null` or as
a missing field: the eris `MessageCreateHandler` and `MessageReactionRemoveAllHandler` on
`message.channel.guild`, the discord.js `ChannelDeleteHandler` on `channel.guild`, the
discord.js `MessageReactionRemoveHandler` on `messageReaction.message.guild`. `handle` only
reads its payload: its result is a function of the payload alone. -/
theorem handle_returns_guild_id (viaNull : Bool) (m : ErisMessage) (c : GuildChannel)
    (r : DjsReaction) :
    Eris.MessageCreateHandler.handle (m.toJS viaNull) = .ok (scopeOf m.channel.guild) ∧
      Eris.MessageReactionRemoveAllHandler.handle (m.toJS viaNull) =
        .ok (scopeOf m.channel.guild) ∧
      Djs.ChannelDeleteHandler.handle (c.toJS viaNull) = .ok (scopeOf c.guild) ∧
      Djs.MessageReactionRemoveHandler.handle (r.toJS viaNull) =
        .ok (scopeOf r.message.guild) := by
  have key : ∀ (id : String) (g : Option Guild),
      Djs.ChannelDeleteHandler.handle (.obj ([("id", .str id)] ++ guildField viaNull g)) =
        .ok (scopeOf g) := by
    intro id g
    cases g with
    | none =>
      cases viaNull <;>
        simp [Djs.ChannelDeleteHandler.handle, guildField, JSValue.getProp, scopeOf,
          JSValue.truthy, bind, Except.bind, pure, Except.pure, List.find?_cons]
    | some g =>
      simp [Djs.ChannelDeleteHandler.handle, guildField, JSValue.getProp, scopeOf,
        JSValue.truthy, Guild.toJS, bind, Except.bind, List.find?_cons]
  have hm : (m.toJS viaNull).getProp "channel" = .ok (m.channel.toJS viaNull) := by
    simp [ErisMessage.toJS, JSValue.getProp, List.find?_cons]
  have hr : (r.toJS viaNull).getProp "message" = .ok (r.message.toJS viaNull) := by
    simp [DjsReaction.toJS, JSValue.getProp, List.find?_cons]
  refine ⟨?_, ?_, key c.id c.guild, ?_⟩
  · rw [eris_create_eq _ _ hm]; exact key _ _
  · rw [eris_removeAll_eq _ _ hm]; exact key _ _
  · rw [djs_reaction_eq _ _ hr]; exact key _ _

/-! ## Module activation -/

namespace Module

variable {μ C L : Type}

/-- C3: `init(commands, listeners)` with both arguments present runs the listener loader on
the state the command loader has left, so commands are loaded first; when the command step
succeeds and the listener step fails with `e`, `init` fails with `e` in the state the
listener loader left, without any rollback: whatever holds of the state after the command
step and is not undone by the listener loader itself still holds. An argument that is `null`
or omitted skips its loader entirely. -/
theorem init_listener_failure_keeps_commands (commandLoader : Loader μ C)
    (listenerLoader : Loader μ L) (cs : C) (ls : L) (m : μ) (e : Fault)
    (hc : (commandLoader.loadAll cs m).2 = none)
    (hl : (listenerLoader.loadAll ls (commandLoader.loadAll cs m).1).2 = some e) :
    init commandLoader listenerLoader (some cs) (some ls) m =
        ((listenerLoader.loadAll ls (commandLoader.loadAll cs m).1).1, some e) ∧
      (∀ loaded : μ → Prop,
        (∀ x, loaded x → loaded (listenerLoader.loadAll ls x).1) →
        loaded (commandLoader.loadAll cs m).1 →
        loaded (init commandLoader listenerLoader (some cs) (some ls) m).1) ∧
      init commandLoader listenerLoader none (some ls) m = listenerLoader.loadAll ls m ∧
      init commandLoader listenerLoader (some cs) none m =
        ((commandLoader.loadAll cs m).1, none) ∧
      init commandLoader listenerLoader none none m = (m, none) := by
  have h1 : init commandLoader listenerLoader (some cs) (some ls) m =
      listenerLoader.loadAll ls (commandLoader.loadAll cs m).1 := by
    simp [init, hc]
  refine ⟨?_, ?_, ?_, ?_, ?_⟩
  · rw [h1, ← hl]
  · intro loaded hkeep hloaded
    rw [h1]
    exact hkeep _ hloaded
  · simp only [init]
  · simp [init, hc]
  · rfl

theorem init_listener_failure_keeps_commands_witness :
    (sampleCommandLoader.loadAll ["ping", "pong"] sampleLoaded).2 = none ∧
      (init sampleCommandLoader sampleListenerLoader (some ["ping", "pong"])
          (some ["join", "ready"]) sampleLoaded).2 =
        some (.axonError "Register [ready]: Already registered!" "REGISTRY" none) ∧
      (init sampleCommandLoader sampleListenerLoader (some ["ping", "pong"])
          (some ["join", "ready"]) sampleLoaded).1.commands = ["ping", "pong"] :=
  ⟨by decide,
   congrArg Prod.snd
     (init_listener_failure_keeps_commands sampleCommandLoader sampleListenerLoader
       ["ping", "pong"] ["join", "ready"] sampleLoaded
       (.axonError "Register [ready]: Already registered!" "REGISTRY" none)
       (by decide) (by decide)).1,
   (init_listener_failure_keeps_commands sampleCommandLoader sampleListenerLoader
       ["ping", "pong"] ["join", "ready"] sampleLoaded
       (.axonError "Register [ready]: Already registered!" "REGISTRY" none)
       (by decide) (by decide)).2.1 (fun x => x.commands = ["ping", "pong"])
       (fun _ h => h) (by decide)⟩

end Module

/-! ## Message collector -/

namespace MessageCollector

/-- C6: for every messages container and every id `mID` (a value `axon.utils.id` accepts, as
the guard at the head of `delete` requires of its argument): if `mID` is present, `delete`
removes the entry under `mID`, leaves every other entry intact and returns the resulting
container; if `mID` is absent, `delete` fails with the not-found error and the collector is
as before. A value that `axon.utils.id` does not accept is turned away by the guard with
the "NOT a ID" error, the collector being as before. -/
theorem delete_spec (idTest : String → Bool) (mID : String) (c : MessageCollector) :
    (idTest mID = true → c.messages.has mID = true →
        (delete idTest mID c).2 = .ok (delete idTest mID c).1.messages ∧
        (delete idTest mID c).1 = { c with messages := (delete idTest mID c).1.messages } ∧
        (delete idTest mID c).1.messages.entries =
          c.messages.entries.filter (fun e => !(e.1 == mID)) ∧
        (delete idTest mID c).1.messages.has mID = false ∧
        ∀ other, other ≠ mID →
          (delete idTest mID c).1.messages.get other = c.messages.get other) ∧
      (idTest mID = true → c.messages.has mID = false →
        delete idTest mID c = (c, .error (.error ("MESSAGE " ++ mID ++ " NOT FOUND")))) ∧
      (idTest mID = false →
        delete idTest mID c = (c, .error (.error ("Value " ++ mID ++ " is NOT a ID")))) := by
  refine ⟨?_, ?_, ?_⟩
  · intro h1 h2
    have h3 : (delete idTest mID c).1 = { c with messages := (c.messages.remove mID).2 } := by
      simp [delete, h1, h2]
    refine ⟨by simp [delete, h1, h2], by rw [h3], by rw [h3]; rfl, ?_, ?_⟩
    · rw [h3]; exact Collection.has_remove_self _ _
    · intro other ho
      rw [h3]; exact Collection.get_remove_of_ne _ _ _ ho
  · intro h1 h2
    simp [delete, h1, h2]
  · intro h1
    simp [delete, h1]

theorem delete_spec_witness :
    digitsOnly "11" = true ∧ heldCollector.messages.has "11" = true ∧
      (delete digitsOnly "11" heldCollector).1.messages.entries =
        [("x-12", lobbyMessage "x-12" "u2" "b")] ∧
      (delete digitsOnly "11" heldCollector).1.messages.get "x-12" =
        heldCollector.messages.get "x-12" :=
  ⟨by decide, by decide,
   ((delete_spec digitsOnly "11" heldCollector).1 (by decide) (by decide)).2.2.1.trans
     (by decide),
   ((delete_spec digitsOnly "11" heldCollector).1 (by decide) (by decide)).2.2.2.2 "x-12"
     (by decide)⟩

/-! ### The filter of `_onMsgCreate` -/

theorem accepts_congr {c d : MessageCollector} (h : SameSetup c d) (m : Message) :
    accepts d m = accepts c m := by
  obtain ⟨h1, h2, h3⟩ := h
  simp [accepts, h1, h2, h3]

theorem stored_congr (f : String → String) {c d : MessageCollector} (h : SameSetup c d)
    (m : Message) : stored f d m = stored f c m := by
  obtain ⟨_, h2, _⟩ := h
  simp [stored, h2]

theorem stored_id (f : String → String) (c : MessageCollector) (m : Message) :
    (stored f c m).id = m.id := by
  unfold stored
  split <;> rfl

theorem onMsgCreate_rejected (f : String → String) (c : MessageCollector) (m : Message)
    (ch : Channel) (hch : c._channel = some ch) (h : accepts c m = false) :
    _onMsgCreate f m c = (c, none) := by
  unfold _onMsgCreate
  simp only [hch]
  simp only [accepts, hch, Option.map_some'] at h
  by_cases h1 : m.channel.id = ch.id
  · by_cases h2 : m.author.id = c.clientUserId
    · simp [h1, h2]
    · cases h3 : (flagSet c._actualOptions.ignoreBots && m.author.bot)
      · cases h4 : otherUser c._actualOptions.uID m.author.id
        · simp [h1, h2, h3, h4] at h
        · simp [h1, h2, h3]
      · simp [h1, h2]
  · simp [h1]

theorem onMsgCreate_accepted (f : String → String) (c : MessageCollector) (m : Message)
    (h : accepts c m = true) :
    _onMsgCreate f m c =
      match c.messages.add m.id (stored f c m) with
      | .error e => (c, some e)
      | .ok ms => (emitCollect (stored f c m) { c with messages := ms }, none) := by
  unfold _onMsgCreate
  cases hch : c._channel with
  | none => simp [accepts, hch] at h
  | some ch =>
    simp only [accepts, hch, Option.map_some', Bool.and_eq_true, beq_iff_eq, Option.some.injEq,
      bne_iff_ne, ne_eq, Bool.not_eq_true'] at h
    obtain ⟨⟨⟨h1, h2⟩, h3⟩, h4⟩ := h
    have e1 : (m.channel.id != ch.id) = false := by simp [h1]
    have e2 : (m.author.id == c.clientUserId) = false := by simpa using h2
    have e5 : stored f c m = (if (!flagSet c._actualOptions.caseSensitive) = true then
        ({ m with content := f m.content } : Message) else m) := by
      unfold stored
      cases flagSet c._actualOptions.caseSensitive <;> rfl
    have e6 : (if (!flagSet c._actualOptions.caseSensitive) = true then
        ({ m with content := f m.content } : Message) else m).id = m.id := by
      rw [← e5]; exact stored_id f c m
    simp only [e1, e2, h3, h4, Bool.false_eq_true, if_false, e6]
    rw [← e5]

theorem onMsgCreate_rejected_state (f : String → String) (c : MessageCollector) (m : Message)
    (h : accepts c m = false) : (_onMsgCreate f m c).1 = c := by
  cases hch : c._channel with
  | none => simp [_onMsgCreate, hch]
  | some ch => rw [onMsgCreate_rejected f c m ch hch h]

theorem has_eq_false_of_not_mem_keys {α : Type} (c : Collection α) (label : String)
    (h : label ∉ c.keys) : c.has label = false := by
  rw [Collection.has_eq_false_iff]
  intro e he heq
  exact h (by simpa [Collection.keys] using ⟨e.2, by rw [← heq]; exact he⟩)

/-! ### Emission of `collect`, `end` and `timedOut` while running -/

theorem emitCollect_below (c : MessageCollector) (msg : Message) (n : Nat)
    (hr : c.onCollect = 1) (hcount : c._actualOptions.count = .val n)
    (hlt : c.messages.size < n) :
    emitCollect msg c = { c with emitted := c.emitted ++ [.collect msg] } := by
  have h : ¬ n ≤ c.messages.size := Nat.not_le.mpr hlt
  simp [emitCollect, hr, _onCollectEvent, reachedCount, hcount, h]

theorem emitCollect_reached (c : MessageCollector) (msg : Message) (n : Nat)
    (hr : Running c) (hcount : c._actualOptions.count = .val n)
    (hge : n ≤ c.messages.size) :
    emitCollect msg c =
      { c with
        emitted := c.emitted ++ [.collect msg, .ended],
        onceEnd := [],
        onMessageCreate := 0, onMessageUpdate := 0, onMessageDelete := 0, onCollect := 0,
        promises := [.resolved c.messages] } := by
  obtain ⟨h1, h2, h3, h4, h5, h6, h7⟩ := hr
  simp [emitCollect, h1, h2, h3, h4, h5, h7, _onCollectEvent, reachedCount, hcount, hge,
    MessageCollector.«end», endHandler, _onEnd, settle]

theorem fireTimeout_running (c : MessageCollector) (hr : Running c)
    (harmed : c.timers.any (fun t => t.1 == 0) = true) :
    fireTimeout 0 c =
      { c with
        timers := c.timers.filter (fun t => !(t.1 == 0)),
        emitted := c.emitted ++ [.timedOut],
        onceTimedOut := [],
        onMessageCreate := 0, onMessageUpdate := 0, onMessageDelete := 0, onCollect := 0,
        promises := [.rejected "TIMEOUT"] } := by
  obtain ⟨h1, h2, h3, h4, h5, h6, h7⟩ := hr
  simp only [fireTimeout, harmed, if_true]
  simp [emitTimedOut, h1, h2, h3, h6, h7, timedOutHandler, _onEnd, settle]

theorem run_new_running (clientUserId : String) (ctor options : Options) (channel : Channel) :
    Running (run channel options (new clientUserId ctor)) :=
  ⟨rfl, rfl, rfl, rfl, rfl, rfl, rfl⟩

theorem deliver_of_unsubscribed (f : String → String) (evs : List Message)
    (c : MessageCollector) (h : c.onMessageCreate = 0) : deliver f evs c = c := by
  induction evs with
  | nil => rfl
  | cons m evs ih =>
    have h1 : (clientEmit f (.messageCreate m) c).1 = c := by
      simp [clientEmit, h, callEach]
    simp only [deliver, List.foldl_cons, h1]
    exact ih

theorem clientEmit_create_running (f : String → String) (m : Message) (c : MessageCollector)
    (h : c.onMessageCreate = 1) :
    (clientEmit f (.messageCreate m) c).1 = (_onMsgCreate f m c).1 := by
  simp only [clientEmit, h, callEach]
  cases h1 : _onMsgCreate f m c with
  | mk c1 o => cases o <;> rfl

/-! ### Reaching the count -/

theorem size_append_one {α : Type} (es : List (String × α)) (e : String × α) :
    (Collection.mk (es ++ [e])).size = (Collection.mk es).size + 1 := by
  simp [Collection.size]

theorem onMsgCreate_new_below (f : String → String) (c : MessageCollector) (m : Message)
    (n : Nat) (hr : Running c) (hcount : c._actualOptions.count = .val n)
    (hacc : accepts c m = true) (hnew : c.messages.has m.id = false)
    (hlt : c.messages.size + 1 < n) :
    (_onMsgCreate f m c).1 =
      { c with messages := ⟨c.messages.entries ++ [(m.id, stored f c m)]⟩,
               emitted := c.emitted ++ [.collect (stored f c m)] } := by
  rw [onMsgCreate_accepted f c m hacc, Collection.add_of_has_false _ _ _ hnew]
  simp only
  rw [emitCollect_below
    { c with messages := ⟨c.messages.entries ++ [(m.id, stored f c m)]⟩ } (stored f c m) n
    hr.collect hcount (by simp only [size_append_one]; exact hlt)]

theorem onMsgCreate_new_reached (f : String → String) (c : MessageCollector) (m : Message)
    (n : Nat) (hr : Running c) (hcount : c._actualOptions.count = .val n)
    (hacc : accepts c m = true) (hnew : c.messages.has m.id = false)
    (hge : n ≤ c.messages.size + 1) :
    (_onMsgCreate f m c).1 =
      { c with
        messages := ⟨c.messages.entries ++ [(m.id, stored f c m)]⟩,
        emitted := c.emitted ++ [.collect (stored f c m), .ended],
        onceEnd := [],
        onMessageCreate := 0, onMessageUpdate := 0, onMessageDelete := 0, onCollect := 0,
        promises := [.resolved ⟨c.messages.entries ++ [(m.id, stored f c m)]⟩] } := by
  rw [onMsgCreate_accepted f c m hacc, Collection.add_of_has_false _ _ _ hnew]
  simp only
  rw [emitCollect_reached
    { c with messages := ⟨c.messages.entries ++ [(m.id, stored f c m)]⟩ } (stored f c m) n
    ⟨hr.create, hr.update, hr.remove, hr.collect, hr.ended, hr.timedOut, hr.promise⟩
    hcount (by simp only [size_append_one]; exact hge)]

theorem deliver_reaches_count (f : String → String) (n : Nat) :
    ∀ (evs : List Message) (c : MessageCollector),
      Running c → c._actualOptions.count = .val n → c.messages.size < n →
      c.messages.size + (evs.filter (accepts c)).length = n →
      (c.messages.keys ++ (evs.filter (accepts c)).map (fun m => m.id)).Nodup →
      (deliver f evs c).promises = [.resolved (deliver f evs c).messages] ∧
        (deliver f evs c).messages.entries =
          c.messages.entries ++ (evs.filter (accepts c)).map (fun m => (m.id, stored f c m)) ∧
        released (deliver f evs c) := by
  intro evs
  induction evs with
  | nil =>
    intro c _ _ hlt hsum _
    simp at hsum
    omega
  | cons m evs ih =>
    intro c hr hcount hlt hsum hnd
    have hstep : deliver f (m :: evs) c = deliver f evs (_onMsgCreate f m c).1 := by
      simp only [deliver, List.foldl_cons, clientEmit_create_running f m c hr.create]
    rw [hstep]
    cases hacc : accepts c m with
    | false =>
      rw [onMsgCreate_rejected_state f c m hacc]
      simp only [List.filter_cons, hacc, Bool.false_eq_true, if_false] at hsum hnd ⊢
      exact ih c hr hcount hlt hsum hnd
    | true =>
      simp only [List.filter_cons, hacc, if_true, List.length_cons, List.map_cons] at hsum hnd ⊢
      have hnot : m.id ∉ c.messages.keys := by
        intro hin
        exact (List.nodup_append.mp hnd).2.2 hin (List.mem_cons_self _ _)
      have hhas : c.messages.has m.id = false := has_eq_false_of_not_mem_keys _ _ hnot
      by_cases hlast : c.messages.size + 1 < n
      · -- still below the count: the collector keeps running
        rw [onMsgCreate_new_below f c m n hr hcount hacc hhas hlast]
        have hsame : SameSetup c
            { c with messages := ⟨c.messages.entries ++ [(m.id, stored f c m)]⟩,
                     emitted := c.emitted ++ [.collect (stored f c m)] } := ⟨rfl, rfl, rfl⟩
        have hacc1 : accepts
            { c with messages := ⟨c.messages.entries ++ [(m.id, stored f c m)]⟩,
                     emitted := c.emitted ++ [.collect (stored f c m)] } = accepts c :=
          funext (accepts_congr hsame)
        have hst1 : stored f
            { c with messages := ⟨c.messages.entries ++ [(m.id, stored f c m)]⟩,
                     emitted := c.emitted ++ [.collect (stored f c m)] } = stored f c :=
          funext (stored_congr f hsame)
        have key := ih
          { c with messages := ⟨c.messages.entries ++ [(m.id, stored f c m)]⟩,
                   emitted := c.emitted ++ [.collect (stored f c m)] }
          ⟨hr.create, hr.update, hr.remove, hr.collect, hr.ended, hr.timedOut, hr.promise⟩
          hcount (by simp only [size_append_one]; exact hlast)
          (by
            rw [hacc1]
            simp only [size_append_one]
            have : (Collection.mk c.messages.entries).size = c.messages.size := rfl
            omega)
          (by
            rw [hacc1]
            simpa [Collection.keys, List.append_assoc] using hnd)
        rw [hacc1, hst1] at key
        simpa [List.append_assoc] using key
      · -- the count is reached: the run ends and nothing is subscribed any more
        have hrest : evs.filter (accepts c) = [] := List.length_eq_zero.mp (by omega)
        rw [onMsgCreate_new_reached f c m n hr hcount hacc hhas (by omega)]
        rw [deliver_of_unsubscribed f evs _ rfl]
        simp [hrest, released]

/-! ### Staying below the count -/

theorem SameSetup.trans {c d e : MessageCollector} (h1 : SameSetup c d) (h2 : SameSetup d e) :
    SameSetup c e :=
  ⟨h2.1.trans h1.1, h2.2.1.trans h1.2.1, h2.2.2.trans h1.2.2⟩

theorem acceptedCreations_congr {c d : MessageCollector} (h : SameSetup c d)
    (tr : List Step) : acceptedCreations d tr = acceptedCreations c tr := by
  have hacc : accepts d = accepts c := funext (accepts_congr h)
  simp [acceptedCreations, hacc]

theorem onMsgCreate_duplicate_state (f : String → String) (c : MessageCollector)
    (m : Message) (hacc : accepts c m = true) (hdup : c.messages.has m.id = true) :
    (_onMsgCreate f m c).1 = c := by
  rw [onMsgCreate_accepted f c m hacc]
  simp [Collection.add, hdup]

theorem size_remove_le {α : Type} (c : Collection α) (label : String) :
    (c.remove label).2.size ≤ c.size := by
  simp only [Collection.remove, Collection.size]
  exact List.length_filter_le _ _

theorem size_update {α : Type} (c : Collection α) (label : String) (v : α) :
    (c.update label v).size = c.size := by
  simp [Collection.update, Collection.size]

/-- A step other than an accepted creation keeps a running collector running, keeps its
setup, and does not enlarge the container. -/
theorem step_quiet (f : String → String) (st : Step) (c : MessageCollector) (hr : Running c)
    (hst : ∀ m, st = .client (.messageCreate m) → (_onMsgCreate f m c).1 = c) :
    Running (step f st c) ∧ SameSetup c (step f st c) ∧
      (step f st c).messages.size ≤ c.messages.size := by
  cases st with
  | editSettled =>
    simp only [step, resumeEdit]
    cases hp : c.pendingEdits with
    | nil => exact ⟨hr, ⟨rfl, rfl, rfl⟩, Nat.le_refl _⟩
    | cons e rest =>
      exact ⟨⟨hr.create, hr.update, hr.remove, hr.collect, hr.ended, hr.timedOut, hr.promise⟩,
        ⟨rfl, rfl, rfl⟩, Nat.le_of_eq (size_update _ _ _)⟩
  | client ev =>
    cases ev with
    | messageCreate m =>
      have h1 : step f (.client (.messageCreate m)) c = c := by
        simp only [step, clientEmit_create_running f m c hr.create]
        exact hst m rfl
      rw [h1]
      exact ⟨hr, ⟨rfl, rfl, rfl⟩, Nat.le_refl _⟩
    | messageUpdate oldMsg m =>
      have h1 : step f (.client (.messageUpdate oldMsg m)) c = _onMsgEdit oldMsg m c := by
        simp [step, clientEmit, hr.update, callEach]
      rw [h1]
      cases oldMsg with
      | none => exact ⟨hr, ⟨rfl, rfl, rfl⟩, Nat.le_refl _⟩
      | some old =>
        simp only [_onMsgEdit]
        split
        · exact ⟨⟨hr.create, hr.update, hr.remove, hr.collect, hr.ended, hr.timedOut,
            hr.promise⟩, ⟨rfl, rfl, rfl⟩, Nat.le_refl _⟩
        · exact ⟨hr, ⟨rfl, rfl, rfl⟩, Nat.le_refl _⟩
    | messageDelete m =>
      have h1 : step f (.client (.messageDelete m)) c = _onMsgDelete m c := by
        simp [step, clientEmit, hr.remove, callEach]
      rw [h1]
      simp only [_onMsgDelete]
      split
      · exact ⟨⟨hr.create, hr.update, hr.remove, hr.collect, hr.ended, hr.timedOut,
          hr.promise⟩, ⟨rfl, rfl, rfl⟩, size_remove_le _ _⟩
      · exact ⟨hr, ⟨rfl, rfl, rfl⟩, Nat.le_refl _⟩

theorem acceptedCreations_cons_other (c : MessageCollector) (st : Step) (tr : List Step)
    (h : ∀ m, st = .client (.messageCreate m) → accepts c m = false) :
    acceptedCreations c (st :: tr) = acceptedCreations c tr := by
  cases st with
  | editSettled => simp [acceptedCreations]
  | client ev =>
    cases ev with
    | messageCreate m => simp [acceptedCreations, h m rfl]
    | messageUpdate oldMsg m => simp [acceptedCreations]
    | messageDelete m => simp [acceptedCreations]

theorem steps_below_count (f : String → String) (n : Nat) :
    ∀ (tr : List Step) (c : MessageCollector),
      Running c → c._actualOptions.count = .val n →
      c.messages.size + (acceptedCreations c tr).length < n →
      Running (steps f tr c) ∧ SameSetup c (steps f tr c) ∧
        (steps f tr c).messages.size < n := by
  intro tr
  induction tr with
  | nil =>
    intro c hr _ hlt
    exact ⟨hr, ⟨rfl, rfl, rfl⟩, by simpa [acceptedCreations] using hlt⟩
  | cons st tr ih =>
    intro c hr hcount hlt
    have hsteps : steps f (st :: tr) c = steps f tr (step f st c) := rfl
    rw [hsteps]
    -- every step but an accepted creation of a new id is quiet
    have quiet : (∀ m, st = .client (.messageCreate m) → (_onMsgCreate f m c).1 = c) →
        (acceptedCreations c tr).length ≤ (acceptedCreations c (st :: tr)).length →
        Running (steps f tr (step f st c)) ∧ SameSetup c (steps f tr (step f st c)) ∧
          (steps f tr (step f st c)).messages.size < n := by
      intro hst hlen
      obtain ⟨q1, q2, q3⟩ := step_quiet f st c hr hst
      obtain ⟨r1, r2, r3⟩ := ih (step f st c) q1 (by rw [q2.2.1]; exact hcount)
        (by rw [acceptedCreations_congr q2]; omega)
      exact ⟨r1, q2.trans r2, r3⟩
    by_cases hcreate : ∃ m, st = .client (.messageCreate m) ∧ accepts c m = true ∧
        c.messages.has m.id = false
    · obtain ⟨m, hm, hacc, hnew⟩ := hcreate
      subst hm
      have hlen : (acceptedCreations c (.client (.messageCreate m) :: tr)).length =
          (acceptedCreations c tr).length + 1 := by
        simp [acceptedCreations, hacc]
      have hbelow : c.messages.size + 1 < n := by omega
      have hstep : step f (.client (.messageCreate m)) c =
          { c with messages := ⟨c.messages.entries ++ [(m.id, stored f c m)]⟩,
                   emitted := c.emitted ++ [.collect (stored f c m)] } := by
        simp only [step, clientEmit_create_running f m c hr.create]
        exact onMsgCreate_new_below f c m n hr hcount hacc hnew hbelow
      rw [hstep]
      have hsame : SameSetup c
          { c with messages := ⟨c.messages.entries ++ [(m.id, stored f c m)]⟩,
                   emitted := c.emitted ++ [.collect (stored f c m)] } := ⟨rfl, rfl, rfl⟩
      obtain ⟨r1, r2, r3⟩ := ih
        { c with messages := ⟨c.messages.entries ++ [(m.id, stored f c m)]⟩,
                 emitted := c.emitted ++ [.collect (stored f c m)] }
        ⟨hr.create, hr.update, hr.remove, hr.collect, hr.ended, hr.timedOut, hr.promise⟩
        hcount
        (by
          rw [acceptedCreations_congr hsame]
          simp only [size_append_one]
          have : (Collection.mk c.messages.entries).size = c.messages.size := rfl
          omega)
      exact ⟨r1, hsame.trans r2, r3⟩
    · have hst : ∀ m, st = .client (.messageCreate m) → (_onMsgCreate f m c).1 = c := by
        intro m hm
        cases hacc : accepts c m with
        | false => exact onMsgCreate_rejected_state f c m hacc
        | true =>
          cases hhas : c.messages.has m.id with
          | true => exact onMsgCreate_duplicate_state f c m hacc hhas
          | false => exact absurd ⟨m, hm, hacc, hhas⟩ hcreate
      refine quiet hst ?_
      simp only [acceptedCreations, List.filterMap_cons]
      split <;> simp

/-! ### Lemmas on `update` -/

theorem update_of_has_false {α : Type} (c : Collection α) (label : String) (v : α)
    (h : c.has label = false) : c.update label v = c := by
  rw [Collection.has_eq_false_iff] at h
  obtain ⟨es⟩ := c
  simp only [Collection.update, Collection.mk.injEq]
  have h1 : ∀ e ∈ es, (if (e.1 == label) = true then (e.1, v) else e) = e := by
    intro e he
    have : (e.1 == label) = false := by simpa using h e he
    simp [this]
  calc es.map (fun e => if (e.1 == label) = true then (e.1, v) else e)
      = es.map id := List.map_congr_left h1
    _ = es := List.map_id es

theorem keys_update {α : Type} (c : Collection α) (label : String) (v : α) :
    (c.update label v).keys = c.keys := by
  obtain ⟨es⟩ := c
  simp only [Collection.update, Collection.keys, List.map_map]
  apply List.map_congr_left
  intro e _
  simp only [Function.comp]
  split <;> rfl

theorem get_update {α : Type} (c : Collection α) (label other : String) (v : α) :
    (c.update label v).get other =
      if other = label then (c.get other).map (fun _ => v) else c.get other := by
  obtain ⟨es⟩ := c
  simp only [Collection.update, Collection.get]
  induction es with
  | nil => simp
  | cons e es ih =>
    simp only [List.map_cons, List.find?_cons]
    by_cases h1 : e.1 = label
    · have e1 : (e.1 == label) = true := by simpa using h1
      simp only [e1, if_true]
      by_cases h2 : other = label
      · subst h2
        simp [e1]
      · have e2 : (e.1 == other) = false := by
          simp only [beq_eq_false_iff_ne, ne_eq]
          exact fun h3 => h2 (h3.symm.trans h1)
        simp only [e2]
        exact ih
    · have e1 : (e.1 == label) = false := by simpa using h1
      simp only [e1, Bool.false_eq_true, if_false]
      cases e2 : (e.1 == other) with
      | false => exact ih
      | true =>
        have h3 : e.1 = other := by simpa using e2
        have h4 : ¬ other = label := fun h5 => h1 (h3.trans h5)
        simp [h4]

theorem get_isSome_of_has {α : Type} (c : Collection α) (label : String)
    (h : c.has label = true) : ∃ v, c.get label = some v := by
  obtain ⟨es⟩ := c
  simp only [Collection.has, List.any_eq_true] at h
  obtain ⟨e, he, hk⟩ := h
  cases hf : es.find? (fun e => e.1 == label) with
  | none =>
    rw [List.find?_eq_none] at hf
    exact absurd hk (hf e he)
  | some x => exact ⟨x.2, by simp [Collection.get, hf]⟩

/-! ### A run that reaches its count, whatever else the client delivers -/

theorem size_eq_keys_length {α : Type} (c : Collection α) : c.size = c.keys.length := by
  simp [Collection.size, Collection.keys]

/-- A step that is neither an accepted creation of a new id nor the deletion of a held id
keeps a running collector running, with the same setup and the same keys. -/
theorem step_keeps_keys (f : String → String) (st : Step) (c : MessageCollector)
    (hr : Running c)
    (hst : ∀ m, st = .client (.messageCreate m) → (_onMsgCreate f m c).1 = c)
    (hdel : ∀ m, st = .client (.messageDelete m) → c.messages.has m.id = false) :
    Running (step f st c) ∧ SameSetup c (step f st c) ∧
      (step f st c).messages.keys = c.messages.keys := by
  cases st with
  | editSettled =>
    simp only [step, resumeEdit]
    cases hp : c.pendingEdits with
    | nil => exact ⟨hr, ⟨rfl, rfl, rfl⟩, rfl⟩
    | cons e rest =>
      exact ⟨⟨hr.create, hr.update, hr.remove, hr.collect, hr.ended, hr.timedOut, hr.promise⟩,
        ⟨rfl, rfl, rfl⟩, keys_update _ _ _⟩
  | client ev =>
    cases ev with
    | messageCreate m =>
      have h1 : step f (.client (.messageCreate m)) c = c := by
        simp only [step, clientEmit_create_running f m c hr.create]
        exact hst m rfl
      rw [h1]
      exact ⟨hr, ⟨rfl, rfl, rfl⟩, rfl⟩
    | messageUpdate oldMsg m =>
      have h1 : step f (.client (.messageUpdate oldMsg m)) c = _onMsgEdit oldMsg m c := by
        simp [step, clientEmit, hr.update, callEach]
      rw [h1]
      cases oldMsg with
      | none => exact ⟨hr, ⟨rfl, rfl, rfl⟩, rfl⟩
      | some old =>
        simp only [_onMsgEdit]
        split
        · exact ⟨⟨hr.create, hr.update, hr.remove, hr.collect, hr.ended, hr.timedOut,
            hr.promise⟩, ⟨rfl, rfl, rfl⟩, rfl⟩
        · exact ⟨hr, ⟨rfl, rfl, rfl⟩, rfl⟩
    | messageDelete m =>
      have h1 : step f (.client (.messageDelete m)) c = c := by
        simp [step, clientEmit, hr.remove, callEach, _onMsgDelete, hdel m rfl]
      rw [h1]
      exact ⟨hr, ⟨rfl, rfl, rfl⟩, rfl⟩

/-- Once nothing is registered on the client any more, no step changes the promises, the
registrations, the timers or the keys of the container. -/
theorem steps_unsubscribed (f : String → String) :
    ∀ (tr : List Step) (c : MessageCollector),
      c.onMessageCreate = 0 → c.onMessageUpdate = 0 → c.onMessageDelete = 0 →
      (steps f tr c).promises = c.promises ∧ (steps f tr c).onMessageCreate = 0 ∧
        (steps f tr c).onMessageUpdate = 0 ∧ (steps f tr c).onMessageDelete = 0 ∧
        (steps f tr c).onCollect = c.onCollect ∧
        (steps f tr c).messages.keys = c.messages.keys ∧
        (steps f tr c).timers = c.timers ∧
        (steps f tr c).onceTimedOut = c.onceTimedOut := by
  intro tr
  induction tr with
  | nil => intro c _ _ _; exact ⟨rfl, ‹_›, ‹_›, ‹_›, rfl, rfl, rfl, rfl⟩
  | cons st tr ih =>
    intro c h1 h2 h3
    have hsteps : steps f (st :: tr) c = steps f tr (step f st c) := rfl
    rw [hsteps]
    have key : (step f st c).promises = c.promises ∧ (step f st c).onMessageCreate = 0 ∧
        (step f st c).onMessageUpdate = 0 ∧ (step f st c).onMessageDelete = 0 ∧
        (step f st c).onCollect = c.onCollect ∧
        (step f st c).messages.keys = c.messages.keys ∧
        (step f st c).timers = c.timers ∧
        (step f st c).onceTimedOut = c.onceTimedOut := by
      cases st with
      | editSettled =>
        simp only [step, resumeEdit]
        cases hp : c.pendingEdits with
        | nil => exact ⟨rfl, h1, h2, h3, rfl, rfl, rfl, rfl⟩
        | cons e rest => exact ⟨rfl, h1, h2, h3, rfl, keys_update _ _ _, rfl, rfl⟩
      | client ev =>
        have h4 : step f (.client ev) c = c := by
          cases ev <;> simp [step, clientEmit, h1, h2, h3, callEach]
        rw [h4]
        exact ⟨rfl, h1, h2, h3, rfl, rfl, rfl, rfl⟩
    obtain ⟨k1, k2, k3, k4, k5, k6, k7, k8⟩ := key
    obtain ⟨r1, r2, r3, r4, r5, r6, r7, r8⟩ := ih (step f st c) k2 k3 k4
    exact ⟨r1.trans k1, r2, r3, r4, r5.trans k5, r6.trans k6, r7.trans k7, r8.trans k8⟩

theorem acceptedCreations_cons_accepted (c : MessageCollector) (m : Message)
    (tr : List Step) (h : accepts c m = true) :
    acceptedCreations c (.client (.messageCreate m) :: tr) = m :: acceptedCreations c tr := by
  simp [acceptedCreations, h]

theorem steps_reaches_count (f : String → String) (n : Nat) :
    ∀ (tr : List Step) (c : MessageCollector),
      Running c → c._actualOptions.count = .val n → c.messages.size < n →
      c.messages.size + (acceptedCreations c tr).length = n →
      (c.messages.keys ++ (acceptedCreations c tr).map (fun m => m.id)).Nodup →
      (∀ m, Step.client (.messageDelete m) ∈ tr →
        m.id ∉ c.messages.keys ++ (acceptedCreations c tr).map (fun m => m.id)) →
      ∃ M, (steps f tr c).promises = [.resolved M] ∧
        M.keys = c.messages.keys ++ (acceptedCreations c tr).map (fun m => m.id) ∧
        released (steps f tr c) := by
  intro tr
  induction tr with
  | nil =>
    intro c _ _ hlt hsum _ _
    simp [acceptedCreations] at hsum
    omega
  | cons st tr ih =>
    intro c hr hcount hlt hsum hnd hkept
    have hsteps : steps f (st :: tr) c = steps f tr (step f st c) := rfl
    rw [hsteps]
    by_cases hcreate : ∃ m, st = .client (.messageCreate m) ∧ accepts c m = true
    · obtain ⟨m, hm, hacc⟩ := hcreate
      subst hm
      rw [acceptedCreations_cons_accepted c m tr hacc] at hsum hnd hkept ⊢
      simp only [List.length_cons, List.map_cons] at hsum hnd hkept ⊢
      have hnot : m.id ∉ c.messages.keys := by
        intro hin
        exact (List.nodup_append.mp hnd).2.2 hin (List.mem_cons_self _ _)
      have hhas : c.messages.has m.id = false := has_eq_false_of_not_mem_keys _ _ hnot
      have hstep0 : step f (.client (.messageCreate m)) c = (_onMsgCreate f m c).1 := by
        simp only [step, clientEmit_create_running f m c hr.create]
      rw [hstep0]
      by_cases hlast : c.messages.size + 1 < n
      · rw [onMsgCreate_new_below f c m n hr hcount hacc hhas hlast]
        have hsame : SameSetup c
            { c with messages := ⟨c.messages.entries ++ [(m.id, stored f c m)]⟩,
                     emitted := c.emitted ++ [.collect (stored f c m)] } := ⟨rfl, rfl, rfl⟩
        have hkeys : (Collection.mk (c.messages.entries ++ [(m.id, stored f c m)])).keys =
            c.messages.keys ++ [m.id] := by
          simp [Collection.keys]
        obtain ⟨M, k1, k2, k3⟩ := ih
          { c with messages := ⟨c.messages.entries ++ [(m.id, stored f c m)]⟩,
                   emitted := c.emitted ++ [.collect (stored f c m)] }
          ⟨hr.create, hr.update, hr.remove, hr.collect, hr.ended, hr.timedOut, hr.promise⟩
          hcount (by simp only [size_append_one]; exact hlast)
          (by
            rw [acceptedCreations_congr hsame]
            simp only [size_append_one]
            have : (Collection.mk c.messages.entries).size = c.messages.size := rfl
            omega)
          (by
            rw [acceptedCreations_congr hsame]
            simp only [hkeys, List.append_assoc, List.singleton_append]
            exact hnd)
          (by
            intro x hx
            rw [acceptedCreations_congr hsame]
            simp only [hkeys, List.append_assoc, List.singleton_append]
            exact hkept x (List.mem_cons_of_mem _ hx))
        refine ⟨M, k1, ?_, k3⟩
        rw [k2, acceptedCreations_congr hsame]
        simp only [hkeys, List.append_assoc, List.singleton_append]
      · have hrest : acceptedCreations c tr = [] := List.length_eq_zero.mp (by omega)
        rw [onMsgCreate_new_reached f c m n hr hcount hacc hhas (by omega)]
        obtain ⟨r1, r2, r3, r4, r5, _, _, _⟩ := steps_unsubscribed f tr
          { c with
            messages := ⟨c.messages.entries ++ [(m.id, stored f c m)]⟩,
            emitted := c.emitted ++ [.collect (stored f c m), .ended],
            onceEnd := [],
            onMessageCreate := 0, onMessageUpdate := 0, onMessageDelete := 0, onCollect := 0,
            promises := [.resolved ⟨c.messages.entries ++ [(m.id, stored f c m)]⟩] }
          rfl rfl rfl
        refine ⟨⟨c.messages.entries ++ [(m.id, stored f c m)]⟩, r1, ?_, ⟨r2, r3, r4, r5⟩⟩
        simp [Collection.keys, hrest]
    · have hother : ∀ m, st = .client (.messageCreate m) → accepts c m = false := by
        intro m hm
        cases hacc : accepts c m with
        | false => rfl
        | true => exact absurd ⟨m, hm, hacc⟩ hcreate
      have hacc0 : acceptedCreations c (st :: tr) = acceptedCreations c tr :=
        acceptedCreations_cons_other c st tr hother
      rw [hacc0] at hsum hnd hkept ⊢
      obtain ⟨q1, q2, q3⟩ := step_keeps_keys f st c hr
        (fun m hm => onMsgCreate_rejected_state f c m (hother m hm))
        (fun m hm => has_eq_false_of_not_mem_keys _ _ (fun hin =>
          hkept m (by rw [hm]; exact List.mem_cons_self _ _) (List.mem_append_left _ hin)))
      have hsz : (step f st c).messages.size = c.messages.size := by
        rw [size_eq_keys_length, size_eq_keys_length, q3]
      obtain ⟨M, k1, k2, k3⟩ := ih (step f st c) q1 (by rw [q2.2.1]; exact hcount)
        (by rw [hsz]; exact hlt)
        (by rw [acceptedCreations_congr q2, hsz]; exact hsum)
        (by rw [acceptedCreations_congr q2, q3]; exact hnd)
        (by
          intro x hx
          rw [acceptedCreations_congr q2, q3]
          exact hkept x (List.mem_cons_of_mem _ hx))
      refine ⟨M, k1, ?_, k3⟩
      rw [k2, acceptedCreations_congr q2, q3]

theorem steps_creations (f : String → String) (evs : List Message) (c : MessageCollector) :
    steps f (evs.map (fun m => Step.client (.messageCreate m))) c = deliver f evs c := by
  simp only [steps, deliver, List.foldl_map, step]

theorem acceptedCreations_creations (c : MessageCollector) (evs : List Message) :
    acceptedCreations c (evs.map (fun m => Step.client (.messageCreate m))) =
      evs.filter (accepts c) := by
  induction evs with
  | nil => rfl
  | cons m evs ih =>
    cases hacc : accepts c m with
    | true =>
      rw [List.map_cons, acceptedCreations_cons_accepted c m _ hacc, ih]
      simp [List.filter_cons, hacc]
    | false =>
      rw [List.map_cons, acceptedCreations_cons_other c _ _
        (fun x hx => by cases hx; exact hacc), ih]
      simp [List.filter_cons, hacc]

theorem mem_deletedIds (tr : List Step) (m : Message)
    (h : Step.client (.messageDelete m) ∈ tr) : m.id ∈ deletedIds tr := by
  simp only [deletedIds, List.mem_filterMap]
  exact ⟨_, h, rfl⟩

/-- C4 (counterexample): with the count 2, two matching creation events with distinct ids
(`11` and `12`) arrive, and between them a deletion event for `11`. The threshold is tested
on the size of the container, which is 1 after the second creation: the promise of `run` is
still pending and the handlers are still registered. -/
theorem run_pending_after_deletion :
    (acceptedCreations (run lobby (countOptions 2) (new "bot" noOptions))
        [.client (.messageCreate (lobbyMessage "11" "u1" "One")),
         .client (.messageDelete (lobbyMessage "11" "u1" "One")),
         .client (.messageCreate (lobbyMessage "12" "u2" "Two"))]).map (fun m => m.id)
        = ["11", "12"] ∧
      (steps asciiLower
        [.client (.messageCreate (lobbyMessage "11" "u1" "One")),
         .client (.messageDelete (lobbyMessage "11" "u1" "One")),
         .client (.messageCreate (lobbyMessage "12" "u2" "Two"))]
        (run lobby (countOptions 2) (new "bot" noOptions))).promises = [.pending] ∧
      (steps asciiLower
        [.client (.messageCreate (lobbyMessage "11" "u1" "One")),
         .client (.messageDelete (lobbyMessage "11" "u1" "One")),
         .client (.messageCreate (lobbyMessage "12" "u2" "Two"))]
        (run lobby (countOptions 2) (new "bot" noOptions))).messages.size = 1 ∧
      ¬ released (steps asciiLower
        [.client (.messageCreate (lobbyMessage "11" "u1" "One")),
         .client (.messageDelete (lobbyMessage "11" "u1" "One")),
         .client (.messageCreate (lobbyMessage "12" "u2" "Two"))]
        (run lobby (countOptions 2) (new "bot" noOptions))) := by
  decide

/-- C4 (amended): for a count threshold `n >= 1` and a fresh collector, whatever the client
delivers after `run` (creations, updates, deletions) and however many pending edits settle:
when exactly `n` of the creation events pass the filter, with distinct ids, and no deletion
event arrives for one of their ids, the promise of `run` is resolved with the messages
container, whose keys are the ids of exactly those `n` messages in order of arrival
(size `n`), and after the transition none of the `messageCreate`, `messageUpdate`,
`messageDelete` handlers is registered on the client and the internal `collect` handler is
removed. When only creation events arrive, the entries of the container are those `n`
messages, each as `_onMsgCreate` stores it. -/
theorem run_resolves_at_count (toLowerCase : String → String) (clientUserId : String)
    (ctor options : Options) (channel : Channel) (n : Nat) (tr : List Step)
    (hn : 1 ≤ n)
    (hcount : (run channel options (new clientUserId ctor))._actualOptions.count = .val n)
    (hmatch : (acceptedCreations (run channel options (new clientUserId ctor)) tr).length = n)
    (hdistinct : ((acceptedCreations (run channel options (new clientUserId ctor)) tr).map
      (fun m => m.id)).Nodup)
    (hkept : ∀ x ∈ deletedIds tr,
      x ∉ (acceptedCreations (run channel options (new clientUserId ctor)) tr).map
        (fun m => m.id)) :
    ∃ M, (steps toLowerCase tr (run channel options (new clientUserId ctor))).promises =
        [.resolved M] ∧
      M.keys = (acceptedCreations (run channel options (new clientUserId ctor)) tr).map
        (fun m => m.id) ∧
      M.size = n ∧
      released (steps toLowerCase tr (run channel options (new clientUserId ctor))) ∧
      (∀ evs : List Message, tr = evs.map (fun m => Step.client (.messageCreate m)) →
        M.entries = (evs.filter (accepts (run channel options (new clientUserId ctor)))).map
          (fun m => (m.id, stored toLowerCase (run channel options (new clientUserId ctor)) m))) := by
  have hsize : (run channel options (new clientUserId ctor)).messages.size = 0 := rfl
  have hkeys : (run channel options (new clientUserId ctor)).messages.keys = [] := rfl
  have hempty : (run channel options (new clientUserId ctor)).messages.entries = [] := rfl
  have hrun := run_new_running clientUserId ctor options channel
  obtain ⟨M, h1, h2, h3⟩ := steps_reaches_count toLowerCase n tr
    (run channel options (new clientUserId ctor)) hrun hcount
    (by rw [hsize]; omega) (by rw [hsize, hmatch]; omega)
    (by rw [hkeys]; simpa using hdistinct)
    (by
      rw [hkeys]
      intro m hm
      simpa using hkept m.id (mem_deletedIds tr m hm))
  rw [hkeys, List.nil_append] at h2
  refine ⟨M, h1, h2, ?_, h3, ?_⟩
  · rw [size_eq_keys_length, h2, List.length_map, hmatch]
  · intro evs hevs
    subst hevs
    rw [acceptedCreations_creations] at hmatch hdistinct
    obtain ⟨d1, d2, _⟩ := deliver_reaches_count toLowerCase n evs
      (run channel options (new clientUserId ctor)) hrun hcount
      (by rw [hsize]; omega) (by rw [hsize, hmatch]; omega)
      (by rw [hkeys]; simpa using hdistinct)
    rw [steps_creations, d1] at h1
    simp only [List.cons.injEq, Settlement.resolved.injEq, and_true] at h1
    rw [← h1, d2, hempty, List.nil_append]

theorem run_resolves_at_count_witness :
    ∃ M, (steps asciiLower
        [.client (.messageCreate (lobbyMessage "11" "u1" "One")),
         .client (.messageDelete elsewhereMessage),
         .client (.messageCreate (lobbyMessage "12" "u2" "Two"))]
        (run lobby (countOptions 2) (new "bot" noOptions))).promises = [.resolved M] ∧
      M.keys = ["11", "12"] ∧
      released (steps asciiLower
        [.client (.messageCreate (lobbyMessage "11" "u1" "One")),
         .client (.messageDelete elsewhereMessage),
         .client (.messageCreate (lobbyMessage "12" "u2" "Two"))]
        (run lobby (countOptions 2) (new "bot" noOptions))) :=
  match run_resolves_at_count asciiLower "bot" noOptions (countOptions 2) lobby 2
      [.client (.messageCreate (lobbyMessage "11" "u1" "One")),
       .client (.messageDelete elsewhereMessage),
       .client (.messageCreate (lobbyMessage "12" "u2" "Two"))]
      (by decide) (by decide) (by decide) (by decide) (by decide) with
  | ⟨M, h1, h2, _, h4, _⟩ => ⟨M, h1, h2.trans (by decide), h4⟩

/-! ### Constructor options and the options of a run -/

theorem run_defaults (clientUserId : String) (ctor options : Options) (channel : Channel) :
    (options.timeout.isNullish = true →
        (run channel options (new clientUserId ctor))._actualOptions.timeout =
          .val (numberOr ctor.timeout 60000)) ∧
      (options.count.isNullish = true →
        (run channel options (new clientUserId ctor))._actualOptions.count =
          .val (numberOr ctor.count 100)) ∧
      (options.ignoreBots.isNullish = true →
        (run channel options (new clientUserId ctor))._actualOptions.ignoreBots =
          .val (flagOrTrue ctor.ignoreBots)) ∧
      (options.caseSensitive.isNullish = true →
        (run channel options (new clientUserId ctor))._actualOptions.caseSensitive =
          .val (flagOrTrue ctor.caseSensitive)) := by
  refine ⟨?_, ?_, ?_, ?_⟩ <;> intro h <;> simp [run, _startTimeout, fillDefaults, new, h]

/-- C11 (the code at the failing input): the `uID` handed to the constructor never reaches a
run, whose `uID` is the one of its own options object whatever the constructor was given.
With `uID = "u1"` given to the constructor and a run without options, the message `12` of the
other user `u2` passes the filter and is collected, whereas the same `uID` given to `run`
keeps it out. -/
theorem constructor_uID_is_dropped :
    (∀ (clientUserId : String) (ctor options : Options) (channel : Channel),
        (run channel options (new clientUserId ctor))._actualOptions.uID = options.uID) ∧
      accepts (run lobby noOptions (new "bot" (userOptions "u1")))
        (lobbyMessage "12" "u2" "Two") = true ∧
      (deliver asciiLower [lobbyMessage "12" "u2" "Two"]
        (run lobby noOptions (new "bot" (userOptions "u1")))).messages.entries =
        [("12", lobbyMessage "12" "u2" "Two")] ∧
      (deliver asciiLower [lobbyMessage "12" "u2" "Two"]
        (run lobby (userOptions "u1") (new "bot" noOptions))).messages.entries = [] := by
  refine ⟨fun _ _ _ _ => rfl, by decide, by decide, by decide⟩

/-! ### What a creation event does to a running collector -/

theorem otherUser_eq_false_iff (o : JSOpt String) (authorId : String) :
    otherUser o authorId = false ↔ (uIDUnset o ∨ o = .val authorId) := by
  cases o with
  | undefined => simp [otherUser, uIDUnset]
  | null => simp [otherUser, uIDUnset]
  | val u =>
    simp only [otherUser, uIDUnset, Bool.and_eq_false_iff, bne_eq_false_iff_eq,
      JSOpt.val.injEq, false_or, reduceCtorEq]
    constructor
    · rintro (h | h)
      · exact Or.inl h
      · exact Or.inr h.symm
    · rintro (h | h)
      · exact Or.inl h
      · exact Or.inr h.symm

theorem accepts_iff (c : MessageCollector) (msg : Message) :
    accepts c msg = true ↔
      (c._channel.map (fun ch => ch.id) = some msg.channel.id ∧
        msg.author.id ≠ c.clientUserId ∧
        ¬ (flagSet c._actualOptions.ignoreBots = true ∧ msg.author.bot = true) ∧
        (uIDUnset c._actualOptions.uID ∨ c._actualOptions.uID = .val msg.author.id)) := by
  rw [← otherUser_eq_false_iff]
  simp only [accepts, Bool.and_eq_true, beq_iff_eq, bne_iff_ne, ne_eq, Bool.not_eq_true',
    Bool.and_eq_false_iff, not_and, Bool.not_eq_true]
  constructor
  · rintro ⟨⟨⟨h1, h2⟩, h3⟩, h4⟩
    refine ⟨h1, h2, ?_, h4⟩
    intro h5
    rcases h3 with h3 | h3
    · rw [h5] at h3; cases h3
    · exact h3
  · rintro ⟨h1, h2, h3, h4⟩
    refine ⟨⟨⟨h1, h2⟩, ?_⟩, h4⟩
    cases h5 : flagSet c._actualOptions.ignoreBots
    · exact Or.inl rfl
    · exact Or.inr (h3 h5)

theorem quietly_refl (c : MessageCollector) : Quietly c c :=
  ⟨rfl, ⟨rfl, rfl, rfl⟩, rfl, [], by simp, rfl⟩

theorem quietly_trans {c d e : MessageCollector} (h1 : Quietly c d) (h2 : Quietly d e) :
    Quietly c e := by
  obtain ⟨a1, a2, a5, x, a3, a4⟩ := h1
  obtain ⟨b1, b2, b5, y, b3, b4⟩ := h2
  refine ⟨b1.trans a1, a2.trans b2, b5.trans a5, x ++ y, ?_, ?_⟩
  · rw [b3, a3, List.append_assoc]
  · simp [collectSignals, List.filterMap_append] at a4 b4 ⊢
    exact ⟨a4, b4⟩

theorem foldl_endHandler_quietly (L : List Nat) (c : MessageCollector) :
    Quietly c (L.foldl endHandler c) := by
  induction L generalizing c with
  | nil => exact quietly_refl c
  | cons k L ih =>
    have h1 : Quietly c (endHandler c k) := ⟨rfl, ⟨rfl, rfl, rfl⟩, rfl, [], by
      simp [endHandler, settle, _onEnd], rfl⟩
    exact quietly_trans h1 (ih (endHandler c k))

theorem end_quietly (c : MessageCollector) : Quietly c c.«end» := by
  have h1 : Quietly c { c with onceEnd := [], emitted := c.emitted ++ [.ended] } :=
    ⟨rfl, ⟨rfl, rfl, rfl⟩, rfl, [.ended], rfl, rfl⟩
  exact quietly_trans h1 (foldl_endHandler_quietly c.onceEnd _)

theorem onCollectEvent_quietly (c : MessageCollector) : Quietly c (_onCollectEvent c) := by
  unfold _onCollectEvent
  split
  · exact end_quietly c
  · exact quietly_refl c

theorem iterate_onCollectEvent_quietly (r : Nat) (c : MessageCollector) :
    Quietly c (Nat.iterate _onCollectEvent r c) := by
  induction r generalizing c with
  | zero => exact quietly_refl c
  | succ r ih =>
    rw [Function.iterate_succ_apply]
    exact quietly_trans (onCollectEvent_quietly c) (ih _)

/-- Emitting `collect` leaves the container and the setup alone and adds exactly one
`collect` signal, whatever is registered. -/
theorem emitCollect_frame (c : MessageCollector) (msg : Message) :
    (emitCollect msg c).messages = c.messages ∧ SameSetup c (emitCollect msg c) ∧
      collectSignals ((emitCollect msg c).emitted.drop c.emitted.length) = [msg] := by
  obtain ⟨h1, h2, _, extra, h3, h4⟩ := iterate_onCollectEvent_quietly c.onCollect
    { c with emitted := c.emitted ++ [.collect msg] }
  refine ⟨h1, h2, ?_⟩
  unfold emitCollect
  rw [h3]
  simp only [List.append_assoc, List.drop_left]
  simp [collectSignals, List.filterMap_append] at h4 ⊢
  exact h4

theorem callEach_fixed (h : MessageCollector → MessageCollector × Option Fault)
    (c : MessageCollector) (hfix : (h c).1 = c) (r : Nat) : (callEach h r c).1 = c := by
  induction r with
  | zero => rfl
  | succ r ih =>
    unfold callEach
    cases hc : h c with
    | mk c1 o =>
      have h1 : c1 = c := by rw [hc] at hfix; exact hfix
      subst h1
      cases o with
      | some e => rfl
      | none => exact ih

/-- However often the creation handler is registered, as long as it is registered the state
left by the client emitting `messageCreate` is the one left by one call of `_onMsgCreate`:
a second call finds the id of an accepted message held and stops at the `DuplicateKey`. -/
theorem clientEmit_create_subscribed (f : String → String) (m : Message)
    (c : MessageCollector) (hsub : 1 ≤ c.onMessageCreate) :
    (clientEmit f (.messageCreate m) c).1 = (_onMsgCreate f m c).1 := by
  obtain ⟨r, hr⟩ : ∃ r, c.onMessageCreate = r + 1 := ⟨c.onMessageCreate - 1, by omega⟩
  simp only [clientEmit, hr, callEach]
  cases hc : _onMsgCreate f m c with
  | mk c1 o =>
    cases o with
    | some e => rfl
    | none =>
      simp only
      apply callEach_fixed
      cases hacc : accepts c m with
      | false =>
        have h1 : c1 = c := by
          have := onMsgCreate_rejected_state f c m hacc
          rw [hc] at this; exact this
        rw [h1]; exact onMsgCreate_rejected_state f c m hacc
      | true =>
        rw [onMsgCreate_accepted f c m hacc] at hc
        cases hadd : c.messages.add m.id (stored f c m) with
        | error e => rw [hadd] at hc; cases hc
        | ok ms =>
          rw [hadd] at hc
          simp only [Prod.mk.injEq, and_true] at hc
          obtain ⟨h1, h2, _⟩ := emitCollect_frame { c with messages := ms } (stored f c m)
          rw [hc] at h1 h2
          have hacc1 : accepts c1 m = true := by
            rw [accepts_congr (c := c) ⟨h2.1, h2.2.1, h2.2.2⟩]; exact hacc
          have hms : ms.has m.id = true := by
            simp only [Collection.add] at hadd
            split at hadd
            · cases hadd
            · cases hadd; simp [Collection.has]
          apply onMsgCreate_duplicate_state f c1 m hacc1
          rw [h1]; exact hms

/-- C12 (counterexample): the running collector `holdingCollector` holds the id `11`; a
creation event with that id passes all four tests of the filter, and yet its payload is not
stored (the container keeps the payload it held), no `collect` is emitted and the collector
is left as it was: `add` fails with `DuplicateKey`. -/
theorem create_of_held_id_not_collected :
    1 ≤ holdingCollector.onMessageCreate ∧
      accepts holdingCollector (lobbyMessage "11" "u1" "Again") = true ∧
      (clientEmit asciiLower (.messageCreate (lobbyMessage "11" "u1" "Again"))
        holdingCollector) = (holdingCollector, some (.duplicateKey "11")) ∧
      holdingCollector.messages.get "11" = some (lobbyMessage "11" "u1" "One") ∧
      ¬ ((clientEmit asciiLower (.messageCreate (lobbyMessage "11" "u1" "Again"))
            holdingCollector).1.messages.get "11" =
          some (stored asciiLower holdingCollector (lobbyMessage "11" "u1" "Again")) ∧
        collectSignals ((clientEmit asciiLower
            (.messageCreate (lobbyMessage "11" "u1" "Again"))
            holdingCollector).1.emitted.drop holdingCollector.emitted.length) =
          [stored asciiLower holdingCollector (lobbyMessage "11" "u1" "Again")]) := by
  decide

/-- C12 (amended): while a collector is running (its creation handler is registered on the
client, however many runs are in progress), a creation event `msg` whose id is not yet a key
of the container is inserted under the key `msg.id` and announced by one `collect` signal if
and only if `msg.channel.id` is the id of the channel of the run, `msg.author.id` is not the
client's own user id, it is not the case that `ignoreBots` holds and the author is a bot, and
`uID` is unset (missing, `null` or empty) or equal to `msg.author.id`. A matching message
goes last in the container; for a non-matching one the collector is left exactly as it was,
so the container is unchanged and no `collect` is emitted. The stored payload is `msg` with
its content lowercased when `caseSensitive` is false and unchanged otherwise. -/
theorem create_collects_iff (toLowerCase : String → String) (c : MessageCollector)
    (msg : Message) (hsub : 1 ≤ c.onMessageCreate) (hnew : c.messages.has msg.id = false) :
    (((clientEmit toLowerCase (.messageCreate msg) c).1.messages.get msg.id =
          some (stored toLowerCase c msg) ∧
        collectSignals ((clientEmit toLowerCase (.messageCreate msg) c).1.emitted.drop
          c.emitted.length) = [stored toLowerCase c msg]) ↔
      (c._channel.map (fun ch => ch.id) = some msg.channel.id ∧
        msg.author.id ≠ c.clientUserId ∧
        ¬ (flagSet c._actualOptions.ignoreBots = true ∧ msg.author.bot = true) ∧
        (uIDUnset c._actualOptions.uID ∨ c._actualOptions.uID = .val msg.author.id))) ∧
      (accepts c msg = true →
        (clientEmit toLowerCase (.messageCreate msg) c).1.messages.entries =
          c.messages.entries ++ [(msg.id, stored toLowerCase c msg)]) ∧
      (accepts c msg = false →
        (clientEmit toLowerCase (.messageCreate msg) c).1 = c ∧
        collectSignals ((clientEmit toLowerCase (.messageCreate msg) c).1.emitted.drop
          c.emitted.length) = []) ∧
      stored toLowerCase c msg =
        { msg with content :=
            if flagSet c._actualOptions.caseSensitive then msg.content
            else toLowerCase msg.content } := by
  rw [clientEmit_create_subscribed toLowerCase msg c hsub, ← accepts_iff]
  have hyes : accepts c msg = true →
      (_onMsgCreate toLowerCase msg c).1.messages =
          ⟨c.messages.entries ++ [(msg.id, stored toLowerCase c msg)]⟩ ∧
        collectSignals ((_onMsgCreate toLowerCase msg c).1.emitted.drop c.emitted.length) =
          [stored toLowerCase c msg] := by
    intro hacc
    rw [onMsgCreate_accepted toLowerCase c msg hacc, Collection.add_of_has_false _ _ _ hnew]
    obtain ⟨h1, _, h3⟩ := emitCollect_frame
      { c with messages := ⟨c.messages.entries ++ [(msg.id, stored toLowerCase c msg)]⟩ }
      (stored toLowerCase c msg)
    exact ⟨h1, h3⟩
  have hno : accepts c msg = false → (_onMsgCreate toLowerCase msg c).1 = c :=
    onMsgCreate_rejected_state toLowerCase c msg
  refine ⟨?_, ?_, ?_, ?_⟩
  · constructor
    · rintro ⟨hget, _⟩
      cases hacc : accepts c msg with
      | true => rfl
      | false =>
        rw [hno hacc, Collection.get_eq_none_of_has_false _ _ hnew] at hget
        cases hget
    · intro hacc
      obtain ⟨h1, h2⟩ := hyes hacc
      refine ⟨?_, h2⟩
      rw [h1]
      exact Collection.get_append_of_has_false _ _ _ hnew
  · intro hacc
    rw [(hyes hacc).1]
  · intro hacc
    rw [hno hacc]
    exact ⟨rfl, by simp [collectSignals]⟩
  · unfold stored
    cases flagSet c._actualOptions.caseSensitive <;> rfl

theorem create_collects_iff_witness :
    1 ≤ holdingCollector.onMessageCreate ∧
      holdingCollector.messages.has "12" = false ∧
      (clientEmit asciiLower (.messageCreate (lobbyMessage "12" "u2" "Two"))
        holdingCollector).1.messages.entries =
        [("11", lobbyMessage "11" "u1" "One"), ("12", lobbyMessage "12" "u2" "Two")] ∧
      (clientEmit asciiLower (.messageCreate elsewhereMessage) holdingCollector).1 =
        holdingCollector :=
  ⟨by decide, by decide,
   ((create_collects_iff asciiLower holdingCollector (lobbyMessage "12" "u2" "Two")
      (by decide) (by decide)).2.1 (by decide)).trans (by decide),
   ((create_collects_iff asciiLower holdingCollector elsewhereMessage
      (by decide) (by decide)).2.2.1 (by decide)).1⟩

/-! ### Updates and their settling delay -/

theorem resumeEdit_messages (d : MessageCollector) (msg : Message) (rest : List Message)
    (hd : d.pendingEdits = msg :: rest) :
    (resumeEdit d).messages = d.messages.update msg.id msg := by
  simp [resumeEdit, hd]

/-- C13: for a collected message `old` and an update event `(old, msg)` for it handled by
`_onMsgEdit`: the handler itself leaves the container as it is and only announces the edit
and leaves the replacement waiting for the settling delay; once the delay is over the
payload stored under the id is the new payload `msg`, every other entry being untouched. If
the entry has been removed by then (by a deletion event, by `delete`, or in any other way)
the update is dropped: the container stays as it is and holds no entry for that id. An
update for an id that is not in the container, or with no old message, changes nothing. -/
theorem edit_settles_after_delay (old msg : Message) (c : MessageCollector)
    (hid : old.id = msg.id) (hc : c.messages.has old.id = true)
    (hpend : c.pendingEdits = []) :
    ((_onMsgEdit (some old) msg c).messages = c.messages ∧
        (_onMsgEdit (some old) msg c).pendingEdits = [msg] ∧
        (_onMsgEdit (some old) msg c).emitted = c.emitted ++ [.edit old msg]) ∧
      ((resumeEdit (_onMsgEdit (some old) msg c)).messages.get msg.id = some msg ∧
        (resumeEdit (_onMsgEdit (some old) msg c)).messages.keys = c.messages.keys ∧
        ∀ other, other ≠ msg.id →
          (resumeEdit (_onMsgEdit (some old) msg c)).messages.get other =
            c.messages.get other) ∧
      ((resumeEdit (_onMsgDelete old (_onMsgEdit (some old) msg c))).messages =
          (c.messages.remove old.id).2 ∧
        (resumeEdit (_onMsgDelete old (_onMsgEdit (some old) msg c))).messages.has msg.id
          = false) ∧
      (∀ (d : MessageCollector) (rest : List Message), d.pendingEdits = msg :: rest →
        d.messages.has msg.id = false →
        (resumeEdit d).messages = d.messages ∧ (resumeEdit d).messages.has msg.id = false) ∧
      (∀ (x : MessageCollector) (o : Message), x.messages.has o.id = false →
        _onMsgEdit (some o) msg x = x) ∧
      (∀ x : MessageCollector, _onMsgEdit none msg x = x) := by
  have hedit : _onMsgEdit (some old) msg c =
      { c with emitted := c.emitted ++ [.edit old msg], pendingEdits := [msg] } := by
    simp [_onMsgEdit, hc, hpend]
  have hdrop : ∀ (d : MessageCollector) (rest : List Message), d.pendingEdits = msg :: rest →
      d.messages.has msg.id = false →
      (resumeEdit d).messages = d.messages ∧ (resumeEdit d).messages.has msg.id = false := by
    intro d rest hd hno
    rw [resumeEdit_messages d msg rest hd, update_of_has_false _ _ _ hno]
    exact ⟨rfl, hno⟩
  refine ⟨?_, ?_, ?_, hdrop, ?_, ?_⟩
  · rw [hedit]
    exact ⟨rfl, rfl, rfl⟩
  · rw [hedit, resumeEdit_messages _ msg [] rfl]
    refine ⟨?_, keys_update _ _ _, ?_⟩
    · obtain ⟨v, hv⟩ := get_isSome_of_has c.messages old.id hc
      rw [hid] at hv
      simp [get_update, hv]
    · intro other ho
      simp [get_update, ho]
  · have hdel : _onMsgDelete old (_onMsgEdit (some old) msg c) =
        { c with messages := (c.messages.remove old.id).2,
                 emitted := c.emitted ++ [.edit old msg] ++ [.delete old],
                 pendingEdits := [msg] } := by
      rw [hedit]
      simp [_onMsgDelete, hc]
    have hgone : (c.messages.remove old.id).2.has msg.id = false := by
      rw [← hid]; exact Collection.has_remove_self _ _
    obtain ⟨h1, h2⟩ := hdrop
      { c with messages := (c.messages.remove old.id).2,
               emitted := c.emitted ++ [.edit old msg] ++ [.delete old],
               pendingEdits := [msg] } [] rfl hgone
    rw [hdel]
    exact ⟨h1, h2⟩
  · intro x o hx
    simp [_onMsgEdit, hx]
  · intro x
    rfl

theorem edit_settles_after_delay_witness :
    (lobbyMessage "11" "u1" "One").id = (lobbyMessage "11" "u1" "Uno").id ∧
      heldCollector.messages.has (lobbyMessage "11" "u1" "One").id = true ∧
      heldCollector.pendingEdits = [] ∧
      (resumeEdit (_onMsgEdit (some (lobbyMessage "11" "u1" "One"))
        (lobbyMessage "11" "u1" "Uno") heldCollector)).messages.get "11" =
        some (lobbyMessage "11" "u1" "Uno") ∧
      (resumeEdit (_onMsgDelete (lobbyMessage "11" "u1" "One")
        (_onMsgEdit (some (lobbyMessage "11" "u1" "One")) (lobbyMessage "11" "u1" "Uno")
          heldCollector))).messages.has "11" = false ∧
      (resumeEdit editingCollector).messages.entries = [("11", lobbyMessage "11" "u1" "Uno")] :=
  ⟨rfl, by decide, rfl,
   (edit_settles_after_delay (lobbyMessage "11" "u1" "One") (lobbyMessage "11" "u1" "Uno")
      heldCollector rfl (by decide) rfl).2.1.1,
   (edit_settles_after_delay (lobbyMessage "11" "u1" "One") (lobbyMessage "11" "u1" "Uno")
      heldCollector rfl (by decide) rfl).2.2.1.2,
   by decide⟩

/-! ### The deadline -/

theorem emitCollect_timers (c : MessageCollector) (msg : Message) :
    (emitCollect msg c).timers = c.timers :=
  (iterate_onCollectEvent_quietly c.onCollect
    { c with emitted := c.emitted ++ [.collect msg] }).2.2.1

theorem onMsgCreate_timers (f : String → String) (m : Message) (c : MessageCollector) :
    (_onMsgCreate f m c).1.timers = c.timers := by
  cases hacc : accepts c m with
  | false => rw [onMsgCreate_rejected_state f c m hacc]
  | true =>
    rw [onMsgCreate_accepted f c m hacc]
    cases c.messages.add m.id (stored f c m) with
    | error e => rfl
    | ok ms => exact emitCollect_timers _ _

theorem callEach_timers (h : MessageCollector → MessageCollector × Option Fault)
    (hh : ∀ c, (h c).1.timers = c.timers) (r : Nat) (c : MessageCollector) :
    (callEach h r c).1.timers = c.timers := by
  induction r generalizing c with
  | zero => rfl
  | succ r ih =>
    unfold callEach
    have h1 := hh c
    cases hc : h c with
    | mk c1 o =>
      rw [hc] at h1
      cases o with
      | some e => exact h1
      | none => exact (ih c1).trans h1

/-- No step arms or spends a timer. -/
theorem step_timers (f : String → String) (st : Step) (c : MessageCollector) :
    (step f st c).timers = c.timers := by
  cases st with
  | editSettled =>
    simp only [step, resumeEdit]
    cases c.pendingEdits <;> rfl
  | client ev =>
    cases ev with
    | messageCreate m => exact callEach_timers _ (onMsgCreate_timers f m) _ _
    | messageUpdate oldMsg m =>
      refine callEach_timers _ (fun x => ?_) _ _
      cases oldMsg with
      | none => rfl
      | some old =>
        simp only [_onMsgEdit]
        split <;> rfl
    | messageDelete m =>
      refine callEach_timers _ (fun x => ?_) _ _
      simp only [_onMsgDelete]
      split <;> rfl

theorem steps_timers (f : String → String) (tr : List Step) (c : MessageCollector) :
    (steps f tr c).timers = c.timers := by
  induction tr generalizing c with
  | nil => rfl
  | cons st tr ih =>
    have hsteps : steps f (st :: tr) c = steps f tr (step f st c) := rfl
    rw [hsteps, ih, step_timers]

/-- After any steps, the first run of a collector is either still running, or it has ended
with at least `count` messages held and nothing registered on the client. -/
theorem steps_running_or_ended (f : String → String) (n : Nat) :
    ∀ (tr : List Step) (c : MessageCollector),
      Running c → c._actualOptions.count = .val n →
      Running (steps f tr c) ∨ n ≤ (steps f tr c).messages.size := by
  intro tr
  induction tr with
  | nil => intro c hr _; exact Or.inl hr
  | cons st tr ih =>
    intro c hr hcount
    have hsteps : steps f (st :: tr) c = steps f tr (step f st c) := rfl
    rw [hsteps]
    by_cases hcreate : ∃ m, st = .client (.messageCreate m) ∧ accepts c m = true ∧
        c.messages.has m.id = false
    · obtain ⟨m, hm, hacc, hnew⟩ := hcreate
      subst hm
      have hstep0 : step f (.client (.messageCreate m)) c = (_onMsgCreate f m c).1 := by
        simp only [step, clientEmit_create_running f m c hr.create]
      rw [hstep0]
      by_cases hlast : c.messages.size + 1 < n
      · rw [onMsgCreate_new_below f c m n hr hcount hacc hnew hlast]
        exact ih _
          ⟨hr.create, hr.update, hr.remove, hr.collect, hr.ended, hr.timedOut, hr.promise⟩
          hcount
      · rw [onMsgCreate_new_reached f c m n hr hcount hacc hnew (by omega)]
        obtain ⟨_, _, _, _, _, r6, _, _⟩ := steps_unsubscribed f tr
          { c with
            messages := ⟨c.messages.entries ++ [(m.id, stored f c m)]⟩,
            emitted := c.emitted ++ [.collect (stored f c m), .ended],
            onceEnd := [],
            onMessageCreate := 0, onMessageUpdate := 0, onMessageDelete := 0, onCollect := 0,
            promises := [.resolved ⟨c.messages.entries ++ [(m.id, stored f c m)]⟩] }
          rfl rfl rfl
        right
        rw [size_eq_keys_length, r6, ← size_eq_keys_length, size_append_one]
        have : (Collection.mk c.messages.entries).size = c.messages.size := rfl
        omega
    · have hst : ∀ m, st = .client (.messageCreate m) → (_onMsgCreate f m c).1 = c := by
        intro m hm
        cases hacc : accepts c m with
        | false => exact onMsgCreate_rejected_state f c m hacc
        | true =>
          cases hhas : c.messages.has m.id with
          | true => exact onMsgCreate_duplicate_state f c m hacc hhas
          | false => exact absurd ⟨m, hm, hacc, hhas⟩ hcreate
      obtain ⟨q1, q2, _⟩ := step_quiet f st c hr hst
      exact ih (step f st c) q1 (by rw [q2.2.1]; exact hcount)

/-! ### Every state a collector can get into -/

theorem settle_get (k : Nat) (o : Settlement) (c : MessageCollector) (j : Nat) :
    (settle k o c).promises.get? j =
      if j = k ∧ c.promises.get? k = some .pending then some o else c.promises.get? j := by
  unfold settle
  cases h : c.promises.get? k with
  | none => simp
  | some v =>
    cases v with
    | pending =>
      by_cases hj : j = k
      · subst hj
        have hlt : j < c.promises.length := by
          rw [List.get?_eq_some] at h; exact h.1
        simp [hlt]
      · have hj2 : ¬ k = j := fun e => hj e.symm
        simp [hj, hj2]
    | resolved m => simp
    | rejected r => simp

theorem settle_pending (k : Nat) (o : Settlement) (c : MessageCollector) (j : Nat)
    (ho : o ≠ .pending) (h : (settle k o c).promises.get? j = some .pending) :
    c.promises.get? j = some .pending ∧ j ≠ k := by
  rw [settle_get] at h
  split at h
  · exact absurd (Option.some.inj h) ho
  · rename_i hn
    refine ⟨h, fun hj => hn ⟨hj, ?_⟩⟩
    rw [← hj]; exact h

theorem settle_settled (k : Nat) (o : Settlement) (c : MessageCollector) (j : Nat)
    (v : Settlement) (hv : v ≠ .pending) (h : c.promises.get? j = some v) :
    (settle k o c).promises.get? j = some v := by
  rw [settle_get]
  split
  · rename_i hn
    obtain ⟨hj, hp⟩ := hn
    rw [hj, hp] at h
    exact absurd (Option.some.inj h).symm hv
  · exact h

theorem foldl_endHandler_sound (L : List Nat) (c : MessageCollector) :
    (L.foldl endHandler c).onMessageCreate ≤ c.onMessageCreate ∧
      (L.foldl endHandler c).onMessageUpdate ≤ c.onMessageUpdate ∧
      (L.foldl endHandler c).onMessageDelete ≤ c.onMessageDelete ∧
      (L.foldl endHandler c).onceTimedOut = c.onceTimedOut ∧
      ∀ j, (L.foldl endHandler c).promises.get? j = some .pending →
        c.promises.get? j = some .pending := by
  induction L generalizing c with
  | nil => exact ⟨Nat.le_refl _, Nat.le_refl _, Nat.le_refl _, rfl, fun _ h => h⟩
  | cons k L ih =>
    obtain ⟨h1, h2, h3, h4, h5⟩ := ih (endHandler c k)
    refine ⟨Nat.le_trans h1 (Nat.sub_le _ _), Nat.le_trans h2 (Nat.sub_le _ _),
      Nat.le_trans h3 (Nat.sub_le _ _), h4, ?_⟩
    intro j hj
    exact (settle_pending k _ (_onEnd c) j (by simp) (h5 j hj)).1

theorem foldl_timedOutHandler (L : List Nat) (c : MessageCollector) :
    (L.foldl timedOutHandler c).onMessageCreate = c.onMessageCreate - L.length ∧
      (L.foldl timedOutHandler c).onMessageUpdate = c.onMessageUpdate - L.length ∧
      (L.foldl timedOutHandler c).onMessageDelete = c.onMessageDelete - L.length ∧
      (L ≠ [] → (L.foldl timedOutHandler c).onCollect = 0) ∧
      (L.foldl timedOutHandler c).onceTimedOut = c.onceTimedOut ∧
      (∀ j, (L.foldl timedOutHandler c).promises.get? j = some .pending →
        c.promises.get? j = some .pending ∧ j ∉ L) ∧
      (∀ j v, v ≠ .pending → c.promises.get? j = some v →
        (L.foldl timedOutHandler c).promises.get? j = some v) ∧
      (∀ j, j ∈ L → c.promises.get? j = some .pending →
        (L.foldl timedOutHandler c).promises.get? j = some (.rejected "TIMEOUT")) := by
  induction L generalizing c with
  | nil =>
    refine ⟨rfl, rfl, rfl, fun h => absurd rfl h, rfl, fun _ h => ⟨h, by simp⟩,
      fun _ _ _ h => h, ?_⟩
    intro j hj
    cases hj
  | cons k L ih =>
    obtain ⟨h1, h2, h3, h4, h5, h6, h7, h8⟩ := ih (timedOutHandler c k)
    have e1 : (timedOutHandler c k).onMessageCreate = c.onMessageCreate - 1 := rfl
    have e2 : (timedOutHandler c k).onMessageUpdate = c.onMessageUpdate - 1 := rfl
    have e3 : (timedOutHandler c k).onMessageDelete = c.onMessageDelete - 1 := rfl
    have e4 : (timedOutHandler c k).onCollect = 0 := rfl
    refine ⟨?_, ?_, ?_, ?_, h5, ?_, ?_, ?_⟩
    · simp only [List.foldl_cons, List.length_cons, h1, e1]; omega
    · simp only [List.foldl_cons, List.length_cons, h2, e2]; omega
    · simp only [List.foldl_cons, List.length_cons, h3, e3]; omega
    · intro _
      simp only [List.foldl_cons]
      cases L with
      | nil => exact e4
      | cons a L => exact h4 (by simp)
    · intro j hj
      obtain ⟨p1, p2⟩ := h6 j hj
      obtain ⟨q1, q2⟩ := settle_pending k _ (_onEnd c) j (by simp) p1
      refine ⟨q1, ?_⟩
      simp only [List.mem_cons, not_or]
      exact ⟨q2, p2⟩
    · intro j v hv hj
      exact h7 j v hv (settle_settled k _ (_onEnd c) j v hv hj)
    · intro j hj hp
      simp only [List.foldl_cons]
      by_cases hjk : j = k
      · have hk : (timedOutHandler c k).promises.get? j = some (.rejected "TIMEOUT") := by
          unfold timedOutHandler
          rw [settle_get]
          have : (_onEnd c).promises.get? k = some .pending := by rw [← hjk]; exact hp
          rw [if_pos ⟨hjk, this⟩]
        exact h7 j _ (by simp) hk
      · have hmem : j ∈ L := by
          rcases List.mem_cons.mp hj with h | h
          · exact absurd h hjk
          · exact h
        apply h8 j hmem
        unfold timedOutHandler
        rw [settle_get]
        have : ¬ (j = k ∧ (_onEnd c).promises.get? k = some .pending) := fun h => hjk h.1
        simp only [this, if_false]
        exact hp

theorem sound_new (clientUserId : String) (options : Options) :
    Sound (new clientUserId options) :=
  ⟨Nat.le_refl _, Nat.le_refl _, Nat.le_refl _, fun k h => by simp [new] at h⟩

theorem sound_run (channel : Channel) (options : Options) (c : MessageCollector)
    (h : Sound c) : Sound (run channel options c) := by
  obtain ⟨h1, h2, h3, h4⟩ := h
  refine ⟨?_, ?_, ?_, ?_⟩
  · simp only [run, _startTimeout, List.length_append, List.length_singleton]; omega
  · simp only [run, _startTimeout, List.length_append, List.length_singleton]; omega
  · simp only [run, _startTimeout, List.length_append, List.length_singleton]; omega
  · intro k hk
    simp only [run, _startTimeout] at hk ⊢
    by_cases hlt : k < c.promises.length
    · rw [List.get?_eq_getElem?, List.getElem?_append_left hlt] at hk
      exact List.mem_append_left _ (h4 k (by rw [List.get?_eq_getElem?]; exact hk))
    · by_cases heq : k = c.promises.length
      · rw [heq]; simp
      · have : (c.promises ++ [Settlement.pending]).get? k = none := by
          rw [List.get?_eq_none]
          simp only [List.length_append, List.length_singleton]
          omega
        rw [this] at hk
        cases hk

theorem sound_end (c : MessageCollector) (h : Sound c) : Sound c.«end» := by
  obtain ⟨h1, h2, h3, h4⟩ := h
  obtain ⟨e1, e2, e3, e4, e5⟩ := foldl_endHandler_sound c.onceEnd
    { c with onceEnd := [], emitted := c.emitted ++ [.ended] }
  unfold MessageCollector.«end»
  refine ⟨?_, ?_, ?_, ?_⟩
  · rw [e4]; exact Nat.le_trans e1 h1
  · rw [e4]; exact Nat.le_trans e2 h2
  · rw [e4]; exact Nat.le_trans e3 h3
  · intro k hk
    rw [e4]
    exact h4 k (e5 k hk)

theorem sound_onCollectEvent (c : MessageCollector) (h : Sound c) :
    Sound (_onCollectEvent c) := by
  unfold _onCollectEvent
  split
  · exact sound_end c h
  · exact h

theorem sound_iterate (r : Nat) (c : MessageCollector) (h : Sound c) :
    Sound (Nat.iterate _onCollectEvent r c) := by
  induction r generalizing c with
  | zero => exact h
  | succ r ih =>
    rw [Function.iterate_succ_apply]
    exact ih _ (sound_onCollectEvent c h)

theorem sound_onMsgCreate (f : String → String) (m : Message) (c : MessageCollector)
    (h : Sound c) : Sound (_onMsgCreate f m c).1 := by
  cases hacc : accepts c m with
  | false => rw [onMsgCreate_rejected_state f c m hacc]; exact h
  | true =>
    rw [onMsgCreate_accepted f c m hacc]
    cases c.messages.add m.id (stored f c m) with
    | error e => exact h
    | ok ms => exact sound_iterate _ _ h

theorem sound_callEach (g : MessageCollector → MessageCollector × Option Fault)
    (hg : ∀ c, Sound c → Sound (g c).1) (r : Nat) (c : MessageCollector) (h : Sound c) :
    Sound (callEach g r c).1 := by
  induction r generalizing c with
  | zero => exact h
  | succ r ih =>
    unfold callEach
    have h1 := hg c h
    cases hc : g c with
    | mk c1 o =>
      rw [hc] at h1
      cases o with
      | some e => exact h1
      | none => exact ih c1 h1

theorem sound_step (f : String → String) (st : Step) (c : MessageCollector) (h : Sound c) :
    Sound (step f st c) := by
  cases st with
  | editSettled =>
    simp only [step, resumeEdit]
    cases c.pendingEdits <;> exact h
  | client ev =>
    cases ev with
    | messageCreate m => exact sound_callEach _ (sound_onMsgCreate f m) _ _ h
    | messageUpdate oldMsg m =>
      refine sound_callEach _ (fun x hx => ?_) _ _ h
      cases oldMsg with
      | none => exact hx
      | some old =>
        simp only [_onMsgEdit]
        split <;> exact hx
    | messageDelete m =>
      refine sound_callEach _ (fun x hx => ?_) _ _ h
      simp only [_onMsgDelete]
      split <;> exact hx

theorem sound_fireTimeout (k : Nat) (c : MessageCollector) (h : Sound c) :
    Sound (fireTimeout k c) := by
  unfold fireTimeout
  split
  · obtain ⟨h1, h2, h3, h4⟩ := h
    obtain ⟨t1, t2, t3, _, t5, t6, _, _⟩ := foldl_timedOutHandler c.onceTimedOut
      { c with timers := c.timers.filter (fun t => !(t.1 == k)), onceTimedOut := [],
               emitted := c.emitted ++ [.timedOut] }
    unfold emitTimedOut
    refine ⟨?_, ?_, ?_, ?_⟩
    · rw [t1, t5]; simp only [List.length_nil]; omega
    · rw [t2, t5]; simp only [List.length_nil]; omega
    · rw [t3, t5]; simp only [List.length_nil]; omega
    · intro j hj
      obtain ⟨p1, p2⟩ := t6 j hj
      exact absurd (h4 j p1) p2
  · exact h

theorem sound_delete (idTest : String → Bool) (mID : String) (c : MessageCollector)
    (h : Sound c) : Sound (delete idTest mID c).1 := by
  unfold delete
  split
  · exact h
  · split
    · exact h
    · exact h

theorem sound_of_reachable (f : String → String) (idTest : String → Bool)
    (c : MessageCollector) (h : Reachable f idTest c) : Sound c := by
  induction h with
  | new clientUserId options => exact sound_new clientUserId options
  | run c channel options _ ih => exact sound_run channel options c ih
  | step c st _ ih => exact sound_step f st c ih
  | timeout c k _ ih => exact sound_fireTimeout k c ih
  | ended c _ ih => exact sound_end c ih
  | delete c mID _ ih => exact sound_delete idTest mID c ih

/-- In every state a collector can get into, a deadline timer that fires while the promise
of its run is pending rejects that promise with "TIMEOUT" and leaves none of the four
handlers registered. -/
theorem fireTimeout_pending (k : Nat) (c : MessageCollector) (h : Sound c)
    (harmed : c.timers.any (fun t => t.1 == k) = true)
    (hp : c.promises.get? k = some .pending) :
    (fireTimeout k c).promises.get? k = some (.rejected "TIMEOUT") ∧
      released (fireTimeout k c) := by
  obtain ⟨h1, h2, h3, h4⟩ := h
  have hk : k ∈ c.onceTimedOut := h4 k hp
  obtain ⟨t1, t2, t3, t4, _, _, _, t8⟩ := foldl_timedOutHandler c.onceTimedOut
    { c with timers := c.timers.filter (fun t => !(t.1 == k)), onceTimedOut := [],
             emitted := c.emitted ++ [.timedOut] }
  simp only [fireTimeout, harmed, if_true]
  unfold emitTimedOut
  refine ⟨t8 k hk hp, ?_, ?_, ?_, ?_⟩
  · rw [t1]; simp only; omega
  · rw [t2]; simp only; omega
  · rw [t3]; simp only; omega
  · exact t4 (List.ne_nil_of_mem hk)

/-- C5: for a fresh collector, whatever the client delivers after `run` (creations, updates,
deletions) and however many pending edits settle: the deadline timer that `run` has armed
with the timeout of the run is still pending, and if fewer than `count` messages are held
when it fires (none at all, or a partial number), it rejects the promise of `run` with
"TIMEOUT" instead of resolving it with the partial container, and after the transition none
of the `messageCreate`, `messageUpdate`, `messageDelete` handlers is registered on the client
and the internal `collect` handler is removed; the timer is spent and the container is left
as it is. More generally, in every state a collector can get into (any number of runs, in
sequence or overlapping, `end()` and `delete(mID)` calls included), an armed deadline timer
that fires while the promise of its run is pending rejects that promise with "TIMEOUT" and
leaves none of the four handlers registered. -/
theorem run_times_out (toLowerCase : String → String) (clientUserId : String)
    (ctor options : Options) (channel : Channel) (n : Nat) (tr : List Step)
    (hcount : (run channel options (new clientUserId ctor))._actualOptions.count = .val n)
    (hheld : (steps toLowerCase tr
      (run channel options (new clientUserId ctor))).messages.size < n) :
    ((steps toLowerCase tr (run channel options (new clientUserId ctor))).timers =
        [(0, (run channel options (new clientUserId ctor))._actualOptions.timeout)] ∧
      (fireTimeout 0 (steps toLowerCase tr
        (run channel options (new clientUserId ctor)))).promises = [.rejected "TIMEOUT"] ∧
      released (fireTimeout 0 (steps toLowerCase tr
        (run channel options (new clientUserId ctor)))) ∧
      (fireTimeout 0 (steps toLowerCase tr
        (run channel options (new clientUserId ctor)))).timers = [] ∧
      (fireTimeout 0 (steps toLowerCase tr
        (run channel options (new clientUserId ctor)))).messages =
        (steps toLowerCase tr (run channel options (new clientUserId ctor))).messages) ∧
      (∀ (idTest : String → Bool) (c : MessageCollector) (k : Nat),
        Reachable toLowerCase idTest c →
        c.timers.any (fun t => t.1 == k) = true →
        c.promises.get? k = some .pending →
        (fireTimeout k c).promises.get? k = some (.rejected "TIMEOUT") ∧
          released (fireTimeout k c)) := by
  refine ⟨?_, fun idTest c k hreach harmed hp =>
    fireTimeout_pending k c (sound_of_reachable toLowerCase idTest c hreach) harmed hp⟩
  have htimers : (steps toLowerCase tr (run channel options (new clientUserId ctor))).timers =
      [(0, (run channel options (new clientUserId ctor))._actualOptions.timeout)] := by
    rw [steps_timers]; rfl
  have hrunning : Running (steps toLowerCase tr
      (run channel options (new clientUserId ctor))) := by
    rcases steps_running_or_ended toLowerCase n tr
      (run channel options (new clientUserId ctor))
      (run_new_running clientUserId ctor options channel) hcount with h | h
    · exact h
    · omega
  have harmed : (steps toLowerCase tr
      (run channel options (new clientUserId ctor))).timers.any (fun t => t.1 == 0) = true := by
    rw [htimers]; rfl
  refine ⟨htimers, ?_⟩
  rw [fireTimeout_running _ hrunning harmed]
  refine ⟨rfl, ⟨rfl, rfl, rfl, rfl⟩, ?_, rfl⟩
  simp only [htimers]
  rfl

theorem run_times_out_witness :
    (steps asciiLower
        [.client (.messageCreate (lobbyMessage "11" "u1" "One")),
         .client (.messageDelete (lobbyMessage "11" "u1" "One")),
         .client (.messageCreate (lobbyMessage "12" "u2" "Two"))]
        (run lobby (countOptions 2) (new "bot" noOptions))).messages.size < 2 ∧
      (fireTimeout 0 (steps asciiLower
        [.client (.messageCreate (lobbyMessage "11" "u1" "One")),
         .client (.messageDelete (lobbyMessage "11" "u1" "One")),
         .client (.messageCreate (lobbyMessage "12" "u2" "Two"))]
        (run lobby (countOptions 2) (new "bot" noOptions)))).promises
        = [.rejected "TIMEOUT"] ∧
      (steps asciiLower [] (run lobby noOptions (new "bot" noOptions))).timers
        = [(0, .val 60000)] ∧
      (fireTimeout 0 (steps asciiLower [] (run lobby noOptions (new "bot" noOptions)))).promises
        = [.rejected "TIMEOUT"] :=
  ⟨by decide,
   (run_times_out asciiLower "bot" noOptions (countOptions 2) lobby 2
      [.client (.messageCreate (lobbyMessage "11" "u1" "One")),
       .client (.messageDelete (lobbyMessage "11" "u1" "One")),
       .client (.messageCreate (lobbyMessage "12" "u2" "Two"))]
      (by decide) (by decide)).1.2.1,
   (run_times_out asciiLower "bot" noOptions noOptions lobby 100 [] (by decide)
      (by decide)).1.1.trans (by decide),
   (run_times_out asciiLower "bot" noOptions noOptions lobby 100 [] (by decide)
      (by decide)).1.2.1⟩

end MessageCollector

end AxonCore
